import Mathlib

/-!
Verification of the conversation-ingestion and time-series aggregation engine
of the `chatgpt-stats` repository (file `src/analytics.py`).

The Python code is shallowly embedded:
* Python `float` arithmetic is modelled by exact rational arithmetic (`ℚ`);
  `round(x, n)` is modelled by round-half-to-even at `n` decimals, matching
  Python's documented rounding mode on exact values.
* `datetime` values are rationals counting seconds since the Unix epoch; the
  local timezone of `datetime.fromtimestamp` is fixed to UTC, so `.date()` is
  floor division by 86400, yielding an integer epoch-day number.
* `datetime.date` values are integer epoch-day numbers; conversion to and from
  calendar `(year, month, day)` triples uses the standard civil-calendar
  algorithms, and `date.isoformat()` renders the zero-padded ISO string.
* Python dicts keyed by dates / period keys are association lists in insertion
  order (new keys appended at the end, existing keys updated in place), which
  matches Python's dict semantics since keys are unique.
* fallible Python code (attribute errors on malformed input) is modelled with
  `Except String`.
-/

namespace ChatStats

/-! ### Rounding (Python `round`, half-to-even) -/

/-- Round a rational to the nearest integer, ties to even (Python `round`). -/
def roundHalfEven (q : ℚ) : ℤ :=
  let f : ℤ := ⌊q⌋
  if q - f < 1/2 then f
  else if (1:ℚ)/2 < q - f then f + 1
  else if f % 2 = 0 then f else f + 1

/-- Python `round(q, 2)`. -/
def pyRound2 (q : ℚ) : ℚ := (roundHalfEven (q * 100) : ℚ) / 100

/-- Python `round(q, 1)`. -/
def pyRound1 (q : ℚ) : ℚ := (roundHalfEven (q * 10) : ℚ) / 10

/-! ### Calendar arithmetic

Dates are integer epoch-day numbers (day 0 = 1970-01-01).  `civilFromDays` /
`daysFromCivil` are the standard proleptic-Gregorian conversions.
-/

/-- A calendar date as a `(year, month, day)` triple. -/
structure Ymd where
  year : ℤ
  month : ℕ
  day : ℕ
deriving DecidableEq, Repr

/-- `calendar.isleap` from the Python standard library. -/
def isLeap (y : ℤ) : Bool := y % 4 == 0 && (y % 100 != 0 || y % 400 == 0)

/-- Number of days in a month (`calendar.monthrange(y, m)[1]`). -/
def daysInMonth (y : ℤ) (m : ℕ) : ℕ :=
  if m = 2 then (if isLeap y then 29 else 28)
  else if m = 4 ∨ m = 6 ∨ m = 9 ∨ m = 11 then 30
  else 31

/-- Epoch-day number of a calendar date (days-from-civil algorithm). -/
def daysFromCivil (y : ℤ) (m : ℕ) (d : ℕ) : ℤ :=
  let y' : ℤ := y - (if m ≤ 2 then 1 else 0)
  let era : ℤ := Int.fdiv y' 400
  let yoe : ℤ := y' - era * 400
  let mp : ℤ := (m : ℤ) + (if 2 < m then -3 else 9)
  let doy : ℤ := Int.fdiv (153 * mp + 2) 5 + d - 1
  let doe : ℤ := yoe * 365 + Int.fdiv yoe 4 - Int.fdiv yoe 100 + doy
  era * 146097 + doe - 719468

/-- Calendar date of an epoch-day number (civil-from-days algorithm). -/
def civilFromDays (z : ℤ) : Ymd :=
  let z' : ℤ := z + 719468
  let era : ℤ := Int.fdiv z' 146097
  let doe : ℤ := z' - era * 146097
  let yoe : ℤ := Int.fdiv (doe - Int.fdiv doe 1460 + Int.fdiv doe 36524 - Int.fdiv doe 146096) 365
  let y : ℤ := yoe + era * 400
  let doy : ℤ := doe - (365 * yoe + Int.fdiv yoe 4 - Int.fdiv yoe 100)
  let mp : ℤ := Int.fdiv (5 * doy + 2) 153
  let d : ℤ := doy - Int.fdiv (153 * mp + 2) 5 + 1
  let m : ℤ := if mp < 10 then mp + 3 else mp - 9
  ⟨y + (if m ≤ 2 then 1 else 0), m.toNat, d.toNat⟩

/-- Calendar year of an epoch-day number. -/
def yearOfDay (z : ℤ) : ℤ := (civilFromDays z).year

/-- Weekday of an epoch-day number, `0` = Monday (`date.weekday()`);
1970-01-01 was a Thursday. -/
def weekday (z : ℤ) : ℤ := (z + 3) % 7

/-! ### ISO-8601 rendering and ISO calendar -/

/-- Zero-pad a natural number to two digits. -/
def pad2 (n : ℕ) : String := if n < 10 then "0" ++ toString n else toString n

/-- Zero-pad a year to four digits (Python `date` years lie in 1..9999). -/
def pad4 (n : ℤ) : String :=
  if n < 10 then "000" ++ toString n
  else if n < 100 then "00" ++ toString n
  else if n < 1000 then "0" ++ toString n
  else toString n

/-- Zero-pad a natural number to six digits (microseconds). -/
def pad6 (n : ℕ) : String :=
  if n < 10 then "00000" ++ toString n
  else if n < 100 then "0000" ++ toString n
  else if n < 1000 then "000" ++ toString n
  else if n < 10000 then "00" ++ toString n
  else if n < 100000 then "0" ++ toString n
  else toString n

/-- `date.isoformat()` of an epoch-day number: `"YYYY-MM-DD"`. -/
def isoDateStr (z : ℤ) : String :=
  let c := civilFromDays z
  pad4 c.year ++ "-" ++ pad2 c.month ++ "-" ++ pad2 c.day

/-- Epoch day of the Thursday in the ISO week of `z`. -/
def isoThursday (z : ℤ) : ℤ := z - weekday z + 3

/-- ISO week-year of an epoch-day number (`date.isocalendar()[0]`). -/
def isoYear (z : ℤ) : ℤ := yearOfDay (isoThursday z)

/-- ISO week number of an epoch-day number (`date.isocalendar()[1]`). -/
def isoWeek (z : ℤ) : ℤ := Int.fdiv (isoThursday z - daysFromCivil (isoYear z) 1 1) 7 + 1

/-- The weekly bucket key `f"{iso_year}-W{iso_week:02d}"`. -/
def isoWeekKey (z : ℤ) : String := toString (isoYear z) ++ "-W" ++ pad2 (isoWeek z).toNat

/-- Epoch day of the Monday of the week of `z` (`d - timedelta(days=d.weekday())`). -/
def mondayOf (z : ℤ) : ℤ := z - weekday z

/-! ### Timestamps

A timestamp is a rational number of seconds since the epoch.  The local
timezone used by `datetime.fromtimestamp` is fixed to UTC in this embedding.
-/

/-- `datetime.fromtimestamp(t).date()` as an epoch-day number. -/
def tsDate (t : ℚ) : ℤ := ⌊t / 86400⌋

/-- `datetime.isoformat()`: `"YYYY-MM-DDTHH:MM:SS"`, plus `".ffffff"` when the
microsecond component is nonzero.  Timestamps are assumed to lie at microsecond
precision, as every Python `datetime` does. -/
def isoDateTime (t : ℚ) : String :=
  let z : ℤ := tsDate t
  let rem : ℚ := t - 86400 * (z : ℚ)
  let s : ℤ := ⌊rem⌋
  let micro : ℤ := ⌊(rem - (s : ℚ)) * 1000000⌋
  let h : ℤ := Int.fdiv s 3600
  let mi : ℤ := Int.fdiv (s % 3600) 60
  let se : ℤ := s % 60
  isoDateStr z ++ "T" ++ pad2 h.toNat ++ ":" ++ pad2 mi.toNat ++ ":" ++ pad2 se.toNat ++
    (if micro = 0 then "" else "." ++ pad6 micro.toNat)

/-! ### Series transformers (`_rolling_avg`, `_expanding_avg`, …) -/

/-- `_rolling_avg(values, window)`: element `i` is the mean of
`values[max(0, i-window+1) : i+1]`.  (`ℚ` division by zero is `0`, which is
reached only for `window = 0`, where the Python function would divide by
zero.) -/
def rollingAvg (values : List ℚ) (window : ℕ) : List ℚ :=
  (List.range values.length).map (fun i =>
    let w := (values.take (i + 1)).drop (i + 1 - window)
    w.sum / (w.length : ℚ))

/-- Helper for `_expanding_avg`: running sum `s`, 1-based position `i`. -/
def expandingAvgAux (s : ℚ) (i : ℕ) : List ℚ → List ℚ
  | [] => []
  | v :: vs => ((s + v) / (i : ℚ)) :: expandingAvgAux (s + v) (i + 1) vs

/-- `_expanding_avg(values)`: element `i` is the mean of `values[0..i]`. -/
def expandingAvg (values : List ℚ) : List ℚ := expandingAvgAux 0 1 values

/-- `_format_rolling(values, window)`: rolling average rounded to 2 decimals. -/
def fmtRolling (values : List ℚ) (window : ℕ) : List ℚ :=
  (rollingAvg values window).map pyRound2

/-- `_format_expanding(values)`: expanding average rounded to 2 decimals. -/
def fmtExpanding (values : List ℚ) : List ℚ := (expandingAvg values).map pyRound2

/-- `_safe_div(num, den)` with the default `0.0`:
`round(num/den, 2)` if `den` is nonzero, else `0`. -/
def safeDiv (num den : ℚ) : ℚ := if den ≠ 0 then pyRound2 (num / den) else 0

/-- The dict produced by `_build_chart_series`. -/
structure ChartSeries where
  values : List ℚ
  avg_7d : List ℚ
  avg_28d : List ℚ
  avg_lifetime : List ℚ
deriving DecidableEq, Repr

/-- `_build_chart_series(values)`: raw values plus 7-day, 28-day, lifetime. -/
def buildChartSeries (values : List ℚ) : ChartSeries :=
  ⟨values, fmtRolling values 7, fmtRolling values 28, fmtExpanding values⟩

/-- The dict produced by `_wrap_with_rolling`: values plus 7- and 28-period
rolling averages. -/
structure WrappedSeries where
  values : List ℚ
  avg_7d : List ℚ
  avg_28d : List ℚ
deriving DecidableEq, Repr

/-- `_wrap_with_rolling(values)`. -/
def wrapWithRolling (values : List ℚ) : WrappedSeries :=
  ⟨values, (rollingAvg values 7).map pyRound2, (rollingAvg values 28).map pyRound2⟩

/-! ### Daily records

A `DailyRecord` is one element of the list built by `_build_daily_records`.
The Python record stores the date as the ISO string `isoDateStr date`; the
embedding keeps the epoch-day number and renders the string at each use, so
`r["date"]` is `recDateStr r`, `r["date"][:7]` is `(recDateStr r).take 7`,
and `date.fromisoformat(r["date"])` is `r.date`.
-/

structure DailyRecord where
  date : ℤ
  total_messages : ℕ := 0
  total_chats : ℕ := 0
  avg_messages_per_chat : ℚ := 0
  max_messages_in_chat : ℕ := 0
  user_words : ℕ := 0
  user_chars : ℕ := 0
  user_msgs : ℕ := 0
  user_code_msgs : ℕ := 0
  asst_words : ℕ := 0
  asst_chars : ℕ := 0
  asst_msgs : ℕ := 0
  asst_code_msgs : ℕ := 0
deriving DecidableEq, Repr

/-- The ISO date string stored in the Python record's `"date"` field. -/
def recDateStr (r : DailyRecord) : String := isoDateStr r.date

/-- `sorted(daily_records, key=lambda r: r["date"])` (stable, lexical on the
ISO string). -/
def sortRecordsByDate (records : List DailyRecord) : List DailyRecord :=
  records.insertionSort (fun a b => recDateStr a ≤ recDateStr b)

/-- The dict produced by `compute_chart_data`. -/
structure ChartData where
  dates : List String
  chats : ChartSeries
  avg_messages : ChartSeries
  total_messages : ChartSeries
deriving DecidableEq, Repr

/-- `compute_chart_data(daily_records)`. -/
def computeChartData (daily_records : List DailyRecord) : ChartData :=
  let sorted := sortRecordsByDate daily_records
  ⟨sorted.map recDateStr,
   buildChartSeries (sorted.map (fun r => (r.total_chats : ℚ))),
   buildChartSeries (sorted.map (fun r => r.avg_messages_per_chat)),
   buildChartSeries (sorted.map (fun r => (r.total_messages : ℚ)))⟩

/-! ### Monthly aggregation (`_build_monthly_buckets`, `compute_monthly_data`) -/

/-- One value of the `_build_monthly_buckets` dict. -/
structure MonthBucket where
  chats : ℕ
  messages : ℕ
  total_msgs_raw : ℕ
  total_chats_raw : ℕ
deriving DecidableEq, Repr

/-- The four `+=` updates of `_build_monthly_buckets` on one bucket. -/
def mbAdd (b : MonthBucket) (r : DailyRecord) : MonthBucket :=
  ⟨b.chats + r.total_chats, b.messages + r.total_messages,
   b.total_msgs_raw + r.total_messages, b.total_chats_raw + r.total_chats⟩

/-- Add one daily record to the bucket for key `k`: zero-initialize the
bucket if the key is absent (appending the new key at the end, as a Python
dict does), then apply the `+=` updates. -/
def monthAdd : List (String × MonthBucket) → String → DailyRecord → List (String × MonthBucket)
  | [], k, r => [(k, mbAdd ⟨0, 0, 0, 0⟩ r)]
  | (k', b) :: rest, k, r =>
    if k' = k then (k', mbAdd b r) :: rest
    else (k', b) :: monthAdd rest k r

/-- `_build_monthly_buckets(sorted_records)`: group by `r["date"][:7]`. -/
def buildMonthlyBuckets (sorted_records : List DailyRecord) : List (String × MonthBucket) :=
  sorted_records.foldl (fun m r => monthAdd m ((recDateStr r).take 7) r) []

/-- `monthly[m]` (the key is always present at use sites; the default is the
zero bucket). -/
def mbGet : List (String × MonthBucket) → String → MonthBucket
  | [], _ => ⟨0, 0, 0, 0⟩
  | (k, b) :: rest, m => if k = m then b else mbGet rest m

/-- The dict produced by `compute_monthly_data`. -/
structure MonthlyData where
  months : List String
  chats : List ℕ
  messages : List ℕ
  avg_messages : List ℚ
  chats_avg_3m : List ℚ
  messages_avg_3m : List ℚ
deriving DecidableEq, Repr

/-- `compute_monthly_data(daily_records)`. -/
def computeMonthlyData (daily_records : List DailyRecord) : MonthlyData :=
  let monthly := buildMonthlyBuckets (sortRecordsByDate daily_records)
  let months := (monthly.map Prod.fst).insertionSort (· ≤ ·)
  let chats := months.map (fun m => (mbGet monthly m).chats)
  let messages := months.map (fun m => (mbGet monthly m).messages)
  let avg_messages := months.map (fun m =>
    let b := mbGet monthly m
    if 0 < b.total_chats_raw then pyRound2 ((b.total_msgs_raw : ℚ) / b.total_chats_raw) else 0)
  ⟨months, chats, messages, avg_messages,
   fmtRolling (chats.map (fun n => (n : ℚ))) 3,
   fmtRolling (messages.map (fun n => (n : ℚ))) 3⟩

/-! ### Weekly aggregation (`_build_weekly_buckets`, `compute_weekly_data`) -/

/-- One value of the `_build_weekly_buckets` dict. -/
structure WeekBucket where
  monday : String
  chats : ℕ
  messages : ℕ
  total_msgs : ℕ
  total_chats : ℕ
deriving DecidableEq, Repr

/-- The four `+=` updates of `_build_weekly_buckets` on one bucket. -/
def wbAdd (b : WeekBucket) (r : DailyRecord) : WeekBucket :=
  ⟨b.monday, b.chats + r.total_chats, b.messages + r.total_messages,
   b.total_msgs + r.total_messages, b.total_chats + r.total_chats⟩

/-- Add one daily record to the ISO-week bucket `k` (zero-initializing with
`monday` as the display anchor on first insertion, then the `+=` updates). -/
def weekAdd : List (String × WeekBucket) → String → String → DailyRecord → List (String × WeekBucket)
  | [], k, monday, r => [(k, wbAdd ⟨monday, 0, 0, 0, 0⟩ r)]
  | (k', b) :: rest, k, monday, r =>
    if k' = k then (k', wbAdd b r) :: rest
    else (k', b) :: weekAdd rest k monday r

/-- `_build_weekly_buckets(sorted_records)`. -/
def buildWeeklyBuckets (sorted_records : List DailyRecord) : List (String × WeekBucket) :=
  sorted_records.foldl (fun w r => weekAdd w (isoWeekKey r.date) (isoDateStr (mondayOf r.date)) r) []

/-- `weekly[k]` (the key is always present at use sites). -/
def wbGet : List (String × WeekBucket) → String → WeekBucket
  | [], _ => ⟨"", 0, 0, 0, 0⟩
  | (k, b) :: rest, m => if k = m then b else wbGet rest m

/-- The 4-tuple returned by `_weekly_series_from_buckets`. -/
structure WeeklySeries where
  weeks : List String
  chats : List ℕ
  messages : List ℕ
  avg_messages : List ℚ
deriving DecidableEq, Repr

/-- `_weekly_series_from_buckets(weekly)`. -/
def weeklySeriesFromBuckets (weekly : List (String × WeekBucket)) : WeeklySeries :=
  let sorted_keys := (weekly.map Prod.fst).insertionSort (· ≤ ·)
  ⟨sorted_keys.map (fun k => (wbGet weekly k).monday),
   sorted_keys.map (fun k => (wbGet weekly k).chats),
   sorted_keys.map (fun k => (wbGet weekly k).messages),
   sorted_keys.map (fun k =>
     let b := wbGet weekly k
     if 0 < b.total_chats then pyRound2 ((b.total_msgs : ℚ) / b.total_chats) else 0)⟩

/-- The dict produced by `compute_weekly_data`. -/
structure WeeklyData where
  weeks : List String
  chats : List ℕ
  messages : List ℕ
  avg_messages : List ℚ
  chats_avg_4w : List ℚ
  chats_avg_12w : List ℚ
  messages_avg_4w : List ℚ
  messages_avg_12w : List ℚ
  avg_messages_avg_4w : List ℚ
  avg_messages_avg_12w : List ℚ
deriving DecidableEq, Repr

/-- `compute_weekly_data(daily_records)`. -/
def computeWeeklyData (daily_records : List DailyRecord) : WeeklyData :=
  let weekly := buildWeeklyBuckets (sortRecordsByDate daily_records)
  let s := weeklySeriesFromBuckets weekly
  ⟨s.weeks, s.chats, s.messages, s.avg_messages,
   fmtRolling (s.chats.map (fun n => (n : ℚ))) 4,
   fmtRolling (s.chats.map (fun n => (n : ℚ))) 12,
   fmtRolling (s.messages.map (fun n => (n : ℚ))) 4,
   fmtRolling (s.messages.map (fun n => (n : ℚ))) 12,
   fmtRolling s.avg_messages 4,
   fmtRolling s.avg_messages 12⟩

/-! ### Content metrics (`_content_metrics_from_records` and friends) -/

/-- The eight raw content-count fields shared by daily records and by the
weekly/monthly content aggregation dicts. -/
structure ContentBucket where
  user_words : ℕ := 0
  user_chars : ℕ := 0
  user_msgs : ℕ := 0
  user_code_msgs : ℕ := 0
  asst_words : ℕ := 0
  asst_chars : ℕ := 0
  asst_msgs : ℕ := 0
  asst_code_msgs : ℕ := 0
deriving DecidableEq, Repr

/-- View a daily record through its content-count fields. -/
def contentOf (r : DailyRecord) : ContentBucket :=
  ⟨r.user_words, r.user_chars, r.user_msgs, r.user_code_msgs,
   r.asst_words, r.asst_chars, r.asst_msgs, r.asst_code_msgs⟩

/-- Fieldwise sum of two content buckets (the `+=` loop over the eight
fields). -/
def contentAdd (a b : ContentBucket) : ContentBucket :=
  ⟨a.user_words + b.user_words, a.user_chars + b.user_chars,
   a.user_msgs + b.user_msgs, a.user_code_msgs + b.user_code_msgs,
   a.asst_words + b.asst_words, a.asst_chars + b.asst_chars,
   a.asst_msgs + b.asst_msgs, a.asst_code_msgs + b.asst_code_msgs⟩

/-- The dict of five parallel metric lists returned by
`_content_metrics_from_records`. -/
structure ContentMetrics where
  avg_user_words : List ℚ
  avg_asst_words : List ℚ
  response_ratio : List ℚ
  code_pct_user : List ℚ
  code_pct_asst : List ℚ
deriving DecidableEq, Repr

/-- `_content_metrics_from_records(sorted_records)`. -/
def contentMetricsFromRecords (sorted_records : List ContentBucket) : ContentMetrics :=
  ⟨sorted_records.map (fun r => safeDiv (r.user_words : ℚ) (r.user_msgs : ℚ)),
   sorted_records.map (fun r => safeDiv (r.asst_words : ℚ) (r.asst_msgs : ℚ)),
   sorted_records.map (fun r => safeDiv (r.asst_words : ℚ) (r.user_words : ℚ)),
   sorted_records.map (fun r => safeDiv ((r.user_code_msgs * 100 : ℕ) : ℚ) (r.user_msgs : ℚ)),
   sorted_records.map (fun r => safeDiv ((r.asst_code_msgs * 100 : ℕ) : ℚ) (r.asst_msgs : ℚ))⟩

/-- The dict produced by `compute_content_chart_data` /
`compute_content_weekly_data` / `compute_content_monthly_data`: the period
labels plus one wrapped series per content metric. -/
structure ContentPeriodData where
  periods : List String
  avg_user_words : WrappedSeries
  avg_asst_words : WrappedSeries
  response_ratio : WrappedSeries
  code_pct_user : WrappedSeries
  code_pct_asst : WrappedSeries
deriving DecidableEq, Repr

/-- Package five metric lists with `_wrap_with_rolling`. -/
def contentPeriodDataOf (periods : List String) (m : ContentMetrics) : ContentPeriodData :=
  ⟨periods,
   wrapWithRolling m.avg_user_words,
   wrapWithRolling m.avg_asst_words,
   wrapWithRolling m.response_ratio,
   wrapWithRolling m.code_pct_user,
   wrapWithRolling m.code_pct_asst⟩

/-- `compute_content_chart_data(daily_records)` (the `dates` list plays the
role of the period labels). -/
def computeContentChartData (daily_records : List DailyRecord) : ContentPeriodData :=
  let sorted := sortRecordsByDate daily_records
  contentPeriodDataOf (sorted.map recDateStr) (contentMetricsFromRecords (sorted.map contentOf))

/-- One value of the `compute_content_weekly_data` bucket dict: the Monday
anchor plus the eight content counters. -/
structure ContentWeekBucket where
  monday : String
  counts : ContentBucket
deriving DecidableEq, Repr

/-- Add one daily record's content counts to the ISO-week bucket `k`. -/
def contentWeekAdd : List (String × ContentWeekBucket) → String → String → DailyRecord →
    List (String × ContentWeekBucket)
  | [], k, monday, r => [(k, ⟨monday, contentOf r⟩)]
  | (k', b) :: rest, k, monday, r =>
    if k' = k then (k', ⟨b.monday, contentAdd b.counts (contentOf r)⟩) :: rest
    else (k', b) :: contentWeekAdd rest k monday r

/-- `weekly[k]` for the content-weekly dict. -/
def cwbGet : List (String × ContentWeekBucket) → String → ContentWeekBucket
  | [], _ => ⟨"", {}⟩
  | (k, b) :: rest, m => if k = m then b else cwbGet rest m

/-- `compute_content_weekly_data(daily_records)`. -/
def computeContentWeeklyData (daily_records : List DailyRecord) : ContentPeriodData :=
  let sorted := sortRecordsByDate daily_records
  let weekly := sorted.foldl
    (fun w r => contentWeekAdd w (isoWeekKey r.date) (isoDateStr (mondayOf r.date)) r) []
  let sorted_keys := (weekly.map Prod.fst).insertionSort (· ≤ ·)
  let weeks := sorted_keys.map (fun k => (cwbGet weekly k).monday)
  let agg_records := sorted_keys.map (fun k => (cwbGet weekly k).counts)
  contentPeriodDataOf weeks (contentMetricsFromRecords agg_records)

/-- Add one daily record's content counts to the month bucket `k`. -/
def contentMonthAdd : List (String × ContentBucket) → String → DailyRecord →
    List (String × ContentBucket)
  | [], k, r => [(k, contentOf r)]
  | (k', b) :: rest, k, r =>
    if k' = k then (k', contentAdd b (contentOf r)) :: rest
    else (k', b) :: contentMonthAdd rest k r

/-- `monthly[k]` for the content-monthly dict. -/
def cbGet : List (String × ContentBucket) → String → ContentBucket
  | [], _ => {}
  | (k, b) :: rest, m => if k = m then b else cbGet rest m

/-- `compute_content_monthly_data(daily_records)`. -/
def computeContentMonthlyData (daily_records : List DailyRecord) : ContentPeriodData :=
  let sorted := sortRecordsByDate daily_records
  let monthly := sorted.foldl (fun m r => contentMonthAdd m ((recDateStr r).take 7) r) []
  let months := (monthly.map Prod.fst).insertionSort (· ≤ ·)
  let agg_records := months.map (fun k => cbGet monthly k)
  contentPeriodDataOf months (contentMetricsFromRecords agg_records)

/-! ### Period comparison (`compute_period_comparison`) -/

/-- The projection fields added by `_add_period_projections` (present only on
the `this_month` / `this_year` dicts). -/
structure PeriodProjection where
  elapsed_days : ℕ
  total_days : ℕ
  projected_chats : ℚ
  projected_messages : ℚ
deriving DecidableEq, Repr

/-- One period entry of the comparison dict.  `projection = none` models a
dict carrying only the three base keys. -/
structure PeriodEntry where
  chats : ℕ
  messages : ℕ
  avg_messages : ℚ
  projection : Option PeriodProjection
deriving DecidableEq, Repr

/-- `_compute_period_bucket(daily_records, match_fn)`. -/
def computePeriodBucket (daily_records : List DailyRecord) (matchFn : DailyRecord → Bool) :
    PeriodEntry :=
  let acc := daily_records.foldl
    (fun (a : ℕ × ℕ × ℕ) r =>
      if matchFn r then (a.1 + r.total_chats, a.2.1 + r.total_messages, a.2.2 + r.total_chats)
      else a)
    (0, 0, 0)
  let avg : ℚ := if 0 < acc.2.2 then pyRound2 ((acc.2.1 : ℚ) / (acc.2.2 : ℚ)) else 0
  ⟨acc.1, acc.2.1, avg, none⟩

/-- `_add_period_projections(stats, elapsed, total)`. -/
def addPeriodProjections (stats : PeriodEntry) (elapsed total : ℕ) : PeriodEntry :=
  let factor : ℚ := if 0 < elapsed then (total : ℚ) / (elapsed : ℚ) else 1
  let proj : PeriodProjection :=
    ⟨elapsed, total, pyRound2 ((stats.chats : ℚ) * factor), pyRound2 ((stats.messages : ℚ) * factor)⟩
  { stats with projection := some proj }

/-- The dict produced by `compute_period_comparison`. -/
structure PeriodComparison where
  this_month : PeriodEntry
  last_month : PeriodEntry
  this_year : PeriodEntry
  last_year : PeriodEntry
deriving DecidableEq, Repr

/-- `compute_period_comparison(daily_records, reference_date)` with an
explicit reference date (the Python default, `date.today()`, is outside the
embedding). -/
def computePeriodComparison (daily_records : List DailyRecord) (ref : Ymd) : PeriodComparison :=
  let this_month_key := toString ref.year ++ "-" ++ pad2 ref.month
  let last_month_key :=
    if ref.month = 1 then toString (ref.year - 1) ++ "-12"
    else toString ref.year ++ "-" ++ pad2 (ref.month - 1)
  let this_year_key := toString ref.year
  let last_year_key := toString (ref.year - 1)
  let this_month := computePeriodBucket daily_records (fun r => (recDateStr r).take 7 == this_month_key)
  let last_month := computePeriodBucket daily_records (fun r => (recDateStr r).take 7 == last_month_key)
  let this_year := computePeriodBucket daily_records (fun r => (recDateStr r).take 4 == this_year_key)
  let last_year := computePeriodBucket daily_records (fun r => (recDateStr r).take 4 == last_year_key)
  let month_total_days := daysInMonth ref.year ref.month
  let year_total_days := if isLeap ref.year then 366 else 365
  let year_elapsed := ((daysFromCivil ref.year ref.month ref.day - daysFromCivil ref.year 1 1) + 1).toNat
  ⟨addPeriodProjections this_month ref.day month_total_days,
   last_month,
   addPeriodProjections this_year year_elapsed year_total_days,
   last_year⟩

/-! ### Gap analysis (`compute_gap_analysis`) -/

/-- One gap dict: ISO timestamps of the endpoints and the length in
(fractional) days. -/
structure GapRecord where
  start_timestamp : String
  end_timestamp : String
  length_days : ℚ
deriving DecidableEq, Repr

/-- Descending-by-length ordering used for `gaps.sort(key=..., reverse=True)`. -/
def gapGE (a b : GapRecord) : Prop := b.length_days ≤ a.length_days

instance : DecidableRel gapGE := fun a b =>
  inferInstanceAs (Decidable (b.length_days ≤ a.length_days))

instance : IsTotal GapRecord gapGE := ⟨fun x y => le_total y.length_days x.length_days⟩

instance : IsTrans GapRecord gapGE := ⟨fun _ _ _ h1 h2 => le_trans h2 h1⟩

/-- The gap-emitting loop over consecutive pairs of the sorted timestamps:
one `GapRecord` per pair with strictly positive difference. -/
def consecutiveGaps : List ℚ → List GapRecord
  | a :: b :: rest =>
    let gap_days := (b - a) / 86400
    if 0 < gap_days then
      ⟨isoDateTime a, isoDateTime b, gap_days⟩ :: consecutiveGaps (b :: rest)
    else consecutiveGaps (b :: rest)
  | _ => []

/-- The `while current <= end_date` loop counting dates not in
`dates_with_messages`, unrolled on the number of days. -/
def countInactiveAux (activeDates : List ℤ) (current : ℤ) : ℕ → ℕ
  | 0 => 0
  | n + 1 => (if current ∈ activeDates then 0 else 1) + countInactiveAux activeDates (current + 1) n

/-- Number of inactive dates in `[startD, endD]`. -/
def countInactive (activeDates : List ℤ) (startD endD : ℤ) : ℕ :=
  countInactiveAux activeDates startD (endD - startD + 1).toNat

/-- The dict produced by `compute_gap_analysis`. -/
structure GapAnalysis where
  gaps : List GapRecord
  total_days : ℤ
  days_active : ℕ
  days_inactive : ℕ
  proportion_inactive : ℚ
  longest_gap : Option GapRecord
deriving DecidableEq, Repr

/-- Body of `compute_gap_analysis` on the already-sorted timestamp list (the
sorted list is empty iff the input was, which is the early-return case). -/
def gapAnalysisSorted : List ℚ → GapAnalysis
  | [] => ⟨[], 0, 0, 0, 0, none⟩
  | t :: ts =>
    let sorted_ts := t :: ts
    let gaps := (consecutiveGaps sorted_ts).insertionSort gapGE
    let dates_with_messages := (sorted_ts.map tsDate).dedup
    let start_date := tsDate t
    let end_date := tsDate (sorted_ts.getLast (List.cons_ne_nil t ts))
    let total_days := end_date - start_date + 1
    let days_inactive := countInactive dates_with_messages start_date end_date
    let prop : ℚ := if 0 < total_days then (days_inactive : ℚ) / (total_days : ℚ) * 100 else 0
    ⟨gaps, total_days, dates_with_messages.length, days_inactive, pyRound2 prop, gaps.head?⟩

/-- `compute_gap_analysis(timestamps)`. -/
def computeGapAnalysis (timestamps : List ℚ) : GapAnalysis :=
  gapAnalysisSorted (timestamps.insertionSort (· ≤ ·))

/-! ### Activity by year (`compute_activity_by_year`) -/

/-- One row of the activity-by-year table. -/
structure YearRow where
  year : String
  total_days : ℤ
  days_active : ℕ
  days_inactive : ℤ
  pct_active : ℚ
  pct_inactive : ℚ
deriving DecidableEq, Repr

/-- `_compute_year_stats(yr, active_by_year, first_date, last_date)`.
`active_by_year[yr]` is the set of active dates with calendar year `yr`; its
size is the count of such dates in the (deduplicated) active-date list. -/
def computeYearStats (yr : ℤ) (activeDates : List ℤ) (firstDate lastDate : ℤ) : YearRow :=
  let start := if yr = yearOfDay firstDate then firstDate else daysFromCivil yr 1 1
  let stop := if yr = yearOfDay lastDate then lastDate else daysFromCivil yr 12 31
  let total := stop - start + 1
  let active := (activeDates.filter (fun d => yearOfDay d = yr)).length
  let inactive := total - active
  ⟨toString yr, total, active, inactive,
   if 0 < total then pyRound1 ((active : ℚ) / (total : ℚ) * 100) else 0,
   if 0 < total then pyRound1 ((inactive : ℚ) / (total : ℚ) * 100) else 0⟩

/-- `_compute_overall_stats(active_dates, first_date, last_date)`. -/
def computeOverallStats (activeDates : List ℤ) (firstDate lastDate : ℤ) : YearRow :=
  let total := lastDate - firstDate + 1
  let active := activeDates.length
  let inactive := total - active
  ⟨"Overall", total, active, inactive,
   if 0 < total then pyRound1 ((active : ℚ) / (total : ℚ) * 100) else 0,
   if 0 < total then pyRound1 ((inactive : ℚ) / (total : ℚ) * 100) else 0⟩

/-- `set(ts.date() for ts in sorted_ts)` as a deduplicated date list. -/
def activeDatesOf (sorted_ts : List ℚ) : List ℤ := (sorted_ts.map tsDate).dedup

/-- `sorted(active_by_year.keys())`: the distinct calendar years of the
active dates, ascending. -/
def activeYearsOf (activeDates : List ℤ) : List ℤ :=
  ((activeDates.map yearOfDay).dedup).insertionSort (· ≤ ·)

/-- Body of `compute_activity_by_year` on the already-sorted timestamp list. -/
def activityByYearSorted : List ℚ → List YearRow
  | [] => []
  | t :: ts =>
    let sorted_ts := t :: ts
    let active_dates := activeDatesOf sorted_ts
    let first_date := tsDate t
    let last_date := tsDate (sorted_ts.getLast (List.cons_ne_nil t ts))
    let years := activeYearsOf active_dates
    let rows := years.map (fun yr => computeYearStats yr active_dates first_date last_date)
    computeOverallStats active_dates first_date last_date :: rows

/-- `compute_activity_by_year(timestamps)`. -/
def computeActivityByYear (timestamps : List ℚ) : List YearRow :=
  activityByYearSorted (timestamps.insertionSort (· ≤ ·))

/-! ### Top-N-per-year selectors -/

/-- `buckets.get(yr, 0)` for the per-year counters of
`_top_records_per_year`. -/
def alGet : List (String × ℕ) → String → ℕ
  | [], _ => 0
  | (k, v) :: rest, y => if k = y then v else alGet rest y

/-- `buckets[yr] = count + 1`: set the counter for `yr` to `v` (update in
place, else append). -/
def alSet : List (String × ℕ) → String → ℕ → List (String × ℕ)
  | [], y, v => [(y, v)]
  | (k, c) :: rest, y, v => if k = y then (k, v) :: rest else (k, c) :: alSet rest y v

/-- The loop of `_top_records_per_year`: keep a record when its year's counter
is below `per_year`, preserving the input order. -/
def topRecordsPerYearAux (perYear : ℕ) : List DailyRecord → List (String × ℕ) → List DailyRecord
  | [], _ => []
  | r :: rs, buckets =>
    let yr := (recDateStr r).take 4
    let count := alGet buckets yr
    if count < perYear then r :: topRecordsPerYearAux perYear rs (alSet buckets yr (count + 1))
    else topRecordsPerYearAux perYear rs buckets

/-- `_top_records_per_year(records, per_year)` (the Python default for
`per_year` is 10). -/
def topRecordsPerYear (records : List DailyRecord) (perYear : ℕ) : List DailyRecord :=
  topRecordsPerYearAux perYear records []

/-- `buckets.setdefault(yr, []); if len(bucket) < per_year: bucket.append(g)`
for `_top_gaps_per_year`. -/
def gapBucketsAdd (perYear : ℕ) : List (String × List GapRecord) → String → GapRecord →
    List (String × List GapRecord)
  | [], k, g => [(k, if 0 < perYear then [g] else [])]
  | (k', b) :: rest, k, g =>
    if k' = k then (k', if b.length < perYear then b ++ [g] else b) :: rest
    else (k', b) :: gapBucketsAdd perYear rest k g

/-- The bucket dict of `_top_gaps_per_year` after the capping loop. -/
def gapYearBuckets (gaps : List GapRecord) (perYear : ℕ) : List (String × List GapRecord) :=
  gaps.foldl (fun bs g => gapBucketsAdd perYear bs (g.start_timestamp.take 4) g) []

/-- `_top_gaps_per_year(gaps, per_year)` (the Python default for `per_year`
is 25): cap per year of the gap's start year, merge, re-sort descending. -/
def topGapsPerYear (gaps : List GapRecord) (perYear : ℕ) : List GapRecord :=
  let merged := ((gapYearBuckets gaps perYear).map Prod.snd).flatten
  merged.insertionSort gapGE

/-- Well-formedness of the gap bucket dict: distinct keys, each bucket capped
at `perYear`, and every gap filed under its own start year.  (Specification
predicate used in the proofs about `_top_gaps_per_year`.) -/
def gapBucketsWF (perYear : ℕ) (bs : List (String × List GapRecord)) : Prop :=
  (bs.map Prod.fst).Nodup ∧
  ∀ p ∈ bs, p.2.length ≤ perYear ∧ ∀ g ∈ p.2, g.start_timestamp.take 4 = p.1

/-! ### Raw JSON values -/

/-- A JSON value, as loaded by `json.load`: the shape of raw conversations. -/
inductive JVal where
  | null
  | bool (b : Bool)
  | num (q : ℚ)
  | str (s : String)
  | arr (elems : List JVal)
  | obj (fields : List (String × JVal))

/-- Key lookup in an object's field list (keys are unique in a dict, so
first-match lookup is dict lookup). -/
def lookupStr : List (String × JVal) → String → Option JVal
  | [], _ => none
  | (k, v) :: rest, key => if k = key then some v else lookupStr rest key

/-- `d.get(key)` on a dict value (`none` when not an object or key absent). -/
def jGet (v : JVal) (key : String) : Option JVal :=
  match v with
  | .obj fields => lookupStr fields key
  | _ => none

/-- `d.get(key)` as seen by Python code that tests `is None`: a JSON `null`
value and an absent key both give Python `None`. -/
def jGetPy (v : JVal) (key : String) : Option JVal :=
  match jGet v key with
  | some .null => none
  | w => w

/-! ### Message content extraction (`_extract_message_content`) -/

/-- The backtick character (written via its code point to keep source
hygiene). -/
def backtickChar : Char := Char.ofNat 96

/-- `len(text.split()) if text.strip() else 0`: the number of maximal
whitespace-free runs. -/
def pyWordCount (text : String) : ℕ :=
  if text.trim = "" then 0
  else ((text.split Char.isWhitespace).filter (fun w => w ≠ "")).length

/-- `re.search(r"(three backticks)", text)`: the text contains three
consecutive backticks. -/
def hasTripleBacktick : List Char → Bool
  | [] => false
  | c :: rest =>
    (decide (c = backtickChar) &&
      (match rest with
       | d :: e :: _ => decide (d = backtickChar) && decide (e = backtickChar)
       | _ => false)) ||
    hasTripleBacktick rest

/-- A regex `\w` character (ASCII reading). -/
def isWordChar (c : Char) : Bool := c.isAlphanum || c = '_'

/-- `re.findall` for the pattern "three backticks followed by a captured
`\w+`": scan left to right; on a match, emit the maximal word-character run
and resume after it; on a mismatch, advance one character. -/
def findCodeLangs : List Char → List String
  | c :: d :: e :: tail =>
    if c = backtickChar ∧ d = backtickChar ∧ e = backtickChar then
      let lang := tail.takeWhile isWordChar
      if lang.isEmpty then findCodeLangs (d :: e :: tail)
      else lang.asString :: findCodeLangs (tail.drop lang.length)
    else findCodeLangs (d :: e :: tail)
  | _ :: rest => findCodeLangs rest
  | [] => []
termination_by l => l.length
decreasing_by
  all_goals simp
  all_goals omega

/-- `_extract_message_content(message)`: returns
`(text, word_count, char_count, has_code, code_languages)`. -/
def extractMessageContent (message : JVal) : String × ℕ × ℕ × Bool × List String :=
  let text : String :=
    match jGet message "content" with
    | some (.obj cf) =>
      match lookupStr cf "parts" with
      | some (.arr parts) =>
        String.intercalate " "
          (parts.filterMap (fun p => match p with | .str s => some s | _ => none))
      | _ => ""
    | _ => ""
  let has_code := hasTripleBacktick text.toList
  (text, pyWordCount text, text.length, has_code,
   if has_code then findCodeLangs text.toList else [])

/-! ### Conversation-level extraction (`_extract_conversation_messages`) -/

/-- One extracted message tuple `(role, create_time, word_count, char_count,
has_code, code_languages)`.  `create_time` holds the raw JSON value (absent
key and JSON `null` both collapse to `none`, i.e. Python `None`); it is
parsed later, in `_process_chat_messages`. -/
structure ExtractedMessage where
  role : String
  create_time : Option JVal
  word_count : ℕ
  char_count : ℕ
  has_code : Bool
  code_languages : List String

/-- The per-node loop of `_extract_conversation_messages` over
`mapping.values()` (in insertion order).  A node whose `"message"` value is
present, non-null and not a dict makes the Python code call `.get` on a
non-dict and raise `AttributeError`; that uncaught exception is the `.error`
case. -/
def extractNodeMessages : List (String × JVal) → Except String (List ExtractedMessage)
  | [] => .ok []
  | (_, node) :: rest =>
    let message? : Option JVal :=
      match node with
      | .obj nf =>
        (match lookupStr nf "message" with
         | some .null => none
         | v => v)
      | _ => none
    match message? with
    | none => extractNodeMessages rest
    | some (.obj mf) =>
      match (match lookupStr mf "author" with | some .null => none | v => v) with
      | some (.obj af) =>
        match lookupStr af "role" with
        | some (.str role) =>
          if role = "user" ∨ role = "assistant" then
            let ct : Option JVal :=
              match lookupStr mf "create_time" with
              | some .null => none
              | v => v
            let m := extractMessageContent (.obj mf)
            (extractNodeMessages rest).map
              (fun ms => (⟨role, ct, m.2.1, m.2.2.1, m.2.2.2.1, m.2.2.2.2⟩ : ExtractedMessage) :: ms)
          else extractNodeMessages rest
        | _ => extractNodeMessages rest
      | _ => extractNodeMessages rest
    | some _ => .error "AttributeError"

/-- `_extract_conversation_messages(chat)`.  A conversation that is not a
dict raises on `chat.get`; a missing or non-dict `mapping` yields `[]`. -/
def extractConversationMessages (chat : JVal) : Except String (List ExtractedMessage) :=
  match chat with
  | .obj _ =>
    match (jGet chat "mapping").getD (.obj []) with
    | .obj nodes => extractNodeMessages nodes
    | _ => .ok []
  | _ => .error "AttributeError"

/-! ### Timestamp parsing (`float(create_time)` + `datetime.fromtimestamp`) -/

/-- Digit run to a natural number. -/
def digitsToNat (ds : List Char) : ℕ := ds.foldl (fun n c => n * 10 + (c.toNat - 48)) 0

/-- An unsigned decimal literal `digits[.digits]` (at least one digit). -/
def parseUnsignedFloat (cs : List Char) : Option ℚ :=
  let intPart := cs.takeWhile Char.isDigit
  let rest := cs.dropWhile Char.isDigit
  match rest with
  | [] => if intPart.isEmpty then none else some ((digitsToNat intPart : ℕ) : ℚ)
  | c :: frac =>
    if c = '.' then
      let fracDigits := frac.takeWhile Char.isDigit
      let rest2 := frac.dropWhile Char.isDigit
      if rest2.isEmpty ∧ ¬(intPart.isEmpty ∧ fracDigits.isEmpty) then
        some (((digitsToNat intPart : ℕ) : ℚ) +
          ((digitsToNat fracDigits : ℕ) : ℚ) / ((10 : ℚ) ^ fracDigits.length))
      else none
    else none

/-- Python `float(s)` on a string, restricted to plain decimal forms with an
optional sign and surrounding whitespace; scientific notation and
`inf`/`nan` are treated as unparseable in this embedding. -/
def parseFloatString (s : String) : Option ℚ :=
  let cs := ((s.toList.dropWhile Char.isWhitespace).reverse.dropWhile Char.isWhitespace).reverse
  match cs with
  | c :: rest =>
    if c = '-' then (parseUnsignedFloat rest).map (fun q => -q)
    else if c = '+' then parseUnsignedFloat rest
    else parseUnsignedFloat cs
  | [] => none

/-- The range accepted by `datetime.fromtimestamp` (years 1–9999); outside it
an `OSError`/`OverflowError`/`ValueError` is raised and caught. -/
def fromTimestampRange (q : ℚ) : Option ℚ :=
  if -62135596800 ≤ q ∧ q ≤ 253402300799 then some q else none

/-- `datetime.fromtimestamp(float(v))` inside the `try` block: `none` is the
caught-exception path (`TypeError`, `ValueError`, `OSError`,
`OverflowError`). -/
def parseTimestamp : JVal → Option ℚ
  | .num q => fromTimestampRange q
  | .bool b => fromTimestampRange (if b then 1 else 0)
  | .str s => (parseFloatString s).bind fromTimestampRange
  | _ => none

/-- The acceptance condition of the user branch of `_process_chat_messages`:
a user-role message whose `create_time` is present and parses. -/
def acceptedUserTime (m : ExtractedMessage) : Option ℚ :=
  if m.role = "user" then m.create_time.bind parseTimestamp else none

/-! ### Daily stats accumulator -/

/-- The accumulator dict created by `_init_daily_bucket`. -/
structure DailyBucket where
  total_messages : ℕ := 0
  total_chats : ℕ := 0
  messages_per_chat : List ℕ := []
  user_words : ℕ := 0
  user_chars : ℕ := 0
  user_msgs : ℕ := 0
  user_code_msgs : ℕ := 0
  asst_words : ℕ := 0
  asst_chars : ℕ := 0
  asst_msgs : ℕ := 0
  asst_code_msgs : ℕ := 0
deriving DecidableEq, Repr

/-- `_init_daily_bucket()`. -/
def initDailyBucket : DailyBucket := {}

/-- The `daily_stats` dict, keyed by epoch-day date, in insertion order. -/
abbrev DailyStats := List (ℤ × DailyBucket)

/-- Dict lookup on `daily_stats`. -/
def dsGet? : DailyStats → ℤ → Option DailyBucket
  | [], _ => none
  | (k, b) :: rest, d => if k = d then some b else dsGet? rest d

/-- The key list of `daily_stats`. -/
def dsKeys (s : DailyStats) : List ℤ := s.map Prod.fst

/-- The five `+=` updates of `_accumulate_user_daily_stats` on one bucket. -/
def userBucketAdd (b : DailyBucket) (wc cc : ℕ) (hc : Bool) : DailyBucket :=
  { b with total_messages := b.total_messages + 1,
           user_words := b.user_words + wc,
           user_chars := b.user_chars + cc,
           user_msgs := b.user_msgs + 1,
           user_code_msgs := b.user_code_msgs + (if hc then 1 else 0) }

/-- `_accumulate_user_daily_stats`: create the bucket if absent (appending
the new key at the end, as a dict does), then apply the user updates. -/
def accumulateUserDailyStats : DailyStats → ℤ → ℕ → ℕ → Bool → DailyStats
  | [], d, wc, cc, hc => [(d, userBucketAdd initDailyBucket wc cc hc)]
  | (k, b) :: rest, d, wc, cc, hc =>
    if k = d then (k, userBucketAdd b wc cc hc) :: rest
    else (k, b) :: accumulateUserDailyStats rest d wc cc hc

/-- The four `+=` updates of `_accumulate_asst_daily_stats` on one bucket. -/
def asstBucketAdd (b : DailyBucket) (wc cc : ℕ) (hc : Bool) : DailyBucket :=
  { b with asst_words := b.asst_words + wc,
           asst_chars := b.asst_chars + cc,
           asst_msgs := b.asst_msgs + 1,
           asst_code_msgs := b.asst_code_msgs + (if hc then 1 else 0) }

/-- `_accumulate_asst_daily_stats`: update the bucket only when the date is
already present, else do nothing. -/
def accumulateAsstDailyStats : DailyStats → ℤ → ℕ → ℕ → Bool → DailyStats
  | [], _, _, _, _ => []
  | (k, b) :: rest, d, wc, cc, hc =>
    if k = d then (k, asstBucketAdd b wc cc hc) :: rest
    else (k, b) :: accumulateAsstDailyStats rest d wc cc hc

/-- `daily_stats[chat_date]["total_chats"] += 1` and
`daily_stats[chat_date]["messages_per_chat"].append(n)` (the key is present
whenever this is reached, since `chat_message_count > 0`). -/
def dsChatAdd : DailyStats → ℤ → ℕ → DailyStats
  | [], _, _ => []
  | (k, b) :: rest, d, n =>
    if k = d then
      (k, { b with total_chats := b.total_chats + 1,
                   messages_per_chat := b.messages_per_chat ++ [n] }) :: rest
    else (k, b) :: dsChatAdd rest d n

/-! ### Per-conversation processing (`_process_chat_messages`) -/

/-- `_update_time_range(start, end, new_time)`. -/
def updateTimeRange (start stop : Option ℚ) (newTime : ℚ) : Option ℚ × Option ℚ :=
  ((match start with
    | none => some newTime
    | some s => if newTime < s then some newTime else some s),
   (match stop with
    | none => some newTime
    | some e => if e < newTime then some newTime else some e))

/-- The loop state of `_process_chat_messages`, together with the two shared
mutable structures (`daily_stats`, `all_timestamps`) threaded through it. -/
structure ChatAcc where
  count : ℕ
  start_time : Option ℚ
  end_time : Option ℚ
  user_words : ℕ
  asst_words : ℕ
  code_langs : List String
  stats : DailyStats
  timestamps : List ℚ

/-- One iteration of the message loop of `_process_chat_messages`. -/
def processMessageStep (acc : ChatAcc) (m : ExtractedMessage) : ChatAcc :=
  let acc := { acc with code_langs := acc.code_langs ++ m.code_languages }
  if m.role = "user" then
    match m.create_time with
    | none => acc
    | some ctv =>
      match parseTimestamp ctv with
      | none => acc
      | some t =>
        let r := updateTimeRange acc.start_time acc.end_time t
        { acc with count := acc.count + 1,
                   user_words := acc.user_words + m.word_count,
                   timestamps := acc.timestamps ++ [t],
                   start_time := r.1,
                   end_time := r.2,
                   stats := accumulateUserDailyStats acc.stats (tsDate t) m.word_count m.char_count m.has_code }
  else if m.role = "assistant" then
    let acc := { acc with asst_words := acc.asst_words + m.word_count }
    match acc.start_time with
    | none => acc
    | some st =>
      { acc with stats := accumulateAsstDailyStats acc.stats (tsDate st) m.word_count m.char_count m.has_code }
  else acc

/-- The per-conversation summary dict. -/
structure ChatSummary where
  date : String
  start_time : String
  end_time : String
  message_count : ℕ
  duration_minutes : ℚ
  user_words : ℕ
  asst_words : ℕ
  response_ratio : ℚ
  code_languages : List String
deriving DecidableEq, Repr

/-- `sorted(set(xs))`: ascending distinct elements. -/
def sortedDedupStr (l : List String) : List String := l.dedup.insertionSort (· ≤ ·)

/-- The initial loop state of `_process_chat_messages`: zero counters, unset
time range, and the incoming shared `daily_stats` / `all_timestamps`. -/
def initChatAcc (stats : DailyStats) (tss : List ℚ) : ChatAcc :=
  ⟨0, none, none, 0, 0, [], stats, tss⟩

/-- One step of the running minimum computed by `_update_time_range` for the
start time. -/
def optMinStep (o : Option ℚ) (t : ℚ) : Option ℚ :=
  match o with
  | none => some t
  | some s => some (min s t)

/-- The earliest accepted user-message timestamp of a message list
(specification-level description of the running `chat_start_time`). -/
def earliestUserTime (msgs : List ExtractedMessage) : Option ℚ :=
  (msgs.filterMap acceptedUserTime).foldl optMinStep none

/-- `_process_chat_messages(messages, daily_stats, all_timestamps)`: returns
the updated shared state and the optional chat summary.  When
`chat_message_count > 0` the running start/end times are necessarily set; the
fallback branch (returning `none`) is unreachable, mirroring the Python
code's reliance on that invariant. -/
def processChatMessages (messages : List ExtractedMessage) (stats : DailyStats)
    (tss : List ℚ) : DailyStats × List ℚ × Option ChatSummary :=
  let acc := messages.foldl processMessageStep (initChatAcc stats tss)
  if acc.count = 0 then (acc.stats, acc.timestamps, none)
  else
    match acc.start_time, acc.end_time with
    | some st, some et =>
      let chat_date := tsDate st
      let duration := (et - st) / 60
      let ratio : ℚ :=
        if 0 < acc.user_words then pyRound2 ((acc.asst_words : ℚ) / (acc.user_words : ℚ)) else 0
      let summary : ChatSummary :=
        ⟨isoDateStr chat_date, isoDateTime st, isoDateTime et, acc.count, pyRound2 duration,
         acc.user_words, acc.asst_words, ratio, sortedDedupStr acc.code_langs⟩
      (dsChatAdd acc.stats chat_date acc.count, acc.timestamps, some summary)
    | _, _ => (acc.stats, acc.timestamps, none)

/-! ### Daily-record finalization and the top-level entry point -/

/-- `max(mpc) if mpc else 0`. -/
def maxOrZero (l : List ℕ) : ℕ := l.foldl max 0

/-- `_build_daily_records(daily_stats)`: one record per accumulated date, in
dict insertion order. -/
def buildDailyRecords (daily_stats : DailyStats) : List DailyRecord :=
  daily_stats.map (fun p =>
    let mpc := p.2.messages_per_chat
    let avg_mpc : ℚ :=
      if ¬ mpc.isEmpty then ((mpc.map (fun n => (n : ℚ))).sum) / (mpc.length : ℚ) else 0
    { date := p.1,
      total_messages := p.2.total_messages,
      total_chats := p.2.total_chats,
      avg_messages_per_chat := pyRound2 avg_mpc,
      max_messages_in_chat := maxOrZero mpc,
      user_words := p.2.user_words,
      user_chars := p.2.user_chars,
      user_msgs := p.2.user_msgs,
      user_code_msgs := p.2.user_code_msgs,
      asst_words := p.2.asst_words,
      asst_chars := p.2.asst_chars,
      asst_msgs := p.2.asst_msgs,
      asst_code_msgs := p.2.asst_code_msgs })

/-- The conversation loop of `process_conversations`; an uncaught extraction
exception aborts the whole batch (the `.error` case). -/
def processConversationsAux : List JVal → List ChatSummary → DailyStats → List ℚ →
    Except String (List ChatSummary × DailyStats × List ℚ)
  | [], sums, stats, tss => .ok (sums, stats, tss)
  | chat :: rest, sums, stats, tss =>
    match extractConversationMessages chat with
    | .error e => .error e
    | .ok messages =>
      if messages.isEmpty then processConversationsAux rest sums stats tss
      else
        let r := processChatMessages messages stats tss
        match r.2.2 with
        | some s => processConversationsAux rest (sums ++ [s]) r.1 r.2.1
        | none => processConversationsAux rest sums r.1 r.2.1

/-- `process_conversations(conversations)`: chat summaries, finalized daily
records, and the flat user-timestamp list. -/
def processConversations (conversations : List JVal) :
    Except String (List ChatSummary × List DailyRecord × List ℚ) :=
  (processConversationsAux conversations [] [] []).map
    (fun r => (r.1, buildDailyRecords r.2.1, r.2.2))

/-! Sanity checks for the calendar embedding. -/

example : civilFromDays 0 = ⟨1970, 1, 1⟩ := by decide
example : civilFromDays 19723 = ⟨2024, 1, 1⟩ := by decide
example : daysFromCivil 2024 2 15 = 19768 := by decide
example : weekday 19737 = 0 := by decide
example : isoWeekKey 19737 = "2024-W03" := by decide
example : isoWeekKey 19738 = "2024-W03" := by decide
example : isoWeekKey 19744 = "2024-W04" := by decide
example : isoDateStr 19768 = "2024-02-15" := by decide
example : tsDate (19723 * 86400 + 36000) = 19723 := by norm_num [tsDate]
example : isoDateTime (19723 * 86400 + 36000) = "2024-01-01T10:00:00" := by
  norm_num [isoDateTime, tsDate]
  decide

/-! ## Theorems -/

/-! ### C7: rolling and expanding averages -/

theorem rollingAvg_getElem (values : List ℚ) (window i : ℕ) (hi : i < values.length) :
    (rollingAvg values window)[i]? =
      some ((((values.take (i + 1)).drop (i + 1 - window)).sum) /
        ((((values.take (i + 1)).drop (i + 1 - window)).length : ℕ) : ℚ)) := by
  unfold rollingAvg
  rw [List.getElem?_map, List.getElem?_range hi]
  rfl

theorem rollingAvg_window_length (values : List ℚ) (window i : ℕ) (hi : i < values.length) :
    ((values.take (i + 1)).drop (i + 1 - window)).length = min window (i + 1) := by
  rw [List.length_drop, List.length_take]
  omega

theorem expandingAvgAux_getElem (values : List ℚ) :
    ∀ (s : ℚ) (i j : ℕ), j < values.length →
      (expandingAvgAux s i values)[j]? =
        some ((s + (values.take (j + 1)).sum) / ((i + j : ℕ) : ℚ)) := by
  induction values with
  | nil => intro s i j hj; simp at hj
  | cons v vs ih =>
    intro s i j hj
    cases j with
    | zero => simp [expandingAvgAux]
    | succ j =>
      have hj' : j < vs.length := by simpa using hj
      simp only [expandingAvgAux, List.getElem?_cons_succ]
      rw [ih (s + v) (i + 1) j hj']
      have hd : (i + 1 + j : ℕ) = (i + (j + 1) : ℕ) := by omega
      rw [List.take_succ_cons, List.sum_cons, hd]
      congr 1
      ring

/-- C7: for every numeric series, the rolling average at window `W > 0` and
position `i` is the mean of the trailing `min(W, i+1)` values (the window
expands at the start), the expanding average at position `i` is the mean of
values `0..i`; consequently the rolling average of a constant series is that
series exactly, and the expanding average of `[2,4,6]` is `[2.0,3.0,4.0]`. -/
theorem claim_C7 :
    (∀ (values : List ℚ) (window i : ℕ), 0 < window → i < values.length →
      ((values.take (i + 1)).drop (i + 1 - window)).length = min window (i + 1) ∧
      (rollingAvg values window)[i]? =
        some ((((values.take (i + 1)).drop (i + 1 - window)).sum) / ((min window (i + 1) : ℕ) : ℚ))) ∧
    (∀ (values : List ℚ) (i : ℕ), i < values.length →
      (expandingAvg values)[i]? = some ((values.take (i + 1)).sum / ((i + 1 : ℕ) : ℚ))) ∧
    (∀ (n : ℕ) (k : ℚ) (window : ℕ), 0 < window →
      rollingAvg (List.replicate n k) window = List.replicate n k) ∧
    expandingAvg [2, 4, 6] = [2, 3, 4] := by
  refine ⟨?_, ?_, ?_, ?_⟩
  · intro values window i hw hi
    refine ⟨rollingAvg_window_length values window i hi, ?_⟩
    rw [rollingAvg_getElem values window i hi, rollingAvg_window_length values window i hi]
  · intro values i hi
    have := expandingAvgAux_getElem values 0 1 i hi
    unfold expandingAvg
    rw [this]
    congr 2
    · ring
    · congr 1
      omega
  · intro n k window hw
    have hlen : (rollingAvg (List.replicate n k) window).length = n := by
      simp [rollingAvg]
    refine List.eq_replicate_iff.mpr ⟨hlen, ?_⟩
    intro b hb
    simp only [rollingAvg, List.mem_map, List.mem_range] at hb
    obtain ⟨i, hi, rfl⟩ := hb
    rw [List.length_replicate] at hi
    have htake : (List.replicate n k).take (i + 1) = List.replicate (min (i + 1) n) k :=
      List.take_replicate _ _ _
    have hdrop : (List.replicate (min (i + 1) n) k).drop (i + 1 - window) =
        List.replicate (min (i + 1) n - (i + 1 - window)) k := List.drop_replicate _ _ _
    rw [htake, hdrop]
    set L := min (i + 1) n - (i + 1 - window) with hL
    have hLpos : 0 < L := by omega
    rw [List.sum_replicate, List.length_replicate, nsmul_eq_mul]
    rw [mul_comm, mul_div_assoc]
    rw [div_self (by exact_mod_cast hLpos.ne')]
    rw [mul_one]
  · norm_num [expandingAvg, expandingAvgAux]

theorem claim_C7_witness :
    ((([(5 : ℚ), 7].take 2).drop 1).length = min 1 2 ∧
      (rollingAvg [(5 : ℚ), 7] 1)[1]? =
        some ((([(5 : ℚ), 7].take 2).drop 1).sum / ((min 1 2 : ℕ) : ℚ))) ∧
    rollingAvg (List.replicate 3 (4 : ℚ)) 7 = List.replicate 3 4 :=
  ⟨claim_C7.1 [5, 7] 1 1 (by decide) (by decide),
   claim_C7.2.2.1 3 4 7 (by decide)⟩

/-! ### C3: gap analysis -/

theorem consecutiveGaps_pos : ∀ (l : List ℚ) (g : GapRecord),
    g ∈ consecutiveGaps l → 0 < g.length_days
  | a :: b :: rest, g, hg => by
    simp only [consecutiveGaps] at hg
    by_cases h : 0 < (b - a) / 86400
    · rw [if_pos h] at hg
      rcases List.mem_cons.mp hg with rfl | hg'
      · exact h
      · exact consecutiveGaps_pos (b :: rest) g hg'
    · rw [if_neg h] at hg
      exact consecutiveGaps_pos (b :: rest) g hg
  | [], g, hg => by simp [consecutiveGaps] at hg
  | [_], g, hg => by simp [consecutiveGaps] at hg

/-- The timestamps `2024-01-01T10:00`, `2024-01-01T11:00`, `2024-01-05T10:00`
(epoch day of 2024-01-01 is 19723). -/
def gapDemoTs : List ℚ :=
  [19723 * 86400 + 36000, 19723 * 86400 + 39600, 19727 * 86400 + 36000]

/-- C3: `compute_gap_analysis` sorts the timestamps ascending and emits one
gap per consecutive pair with strictly positive fractional-day difference
(the output is a permutation of that pair list, re-sorted descending by
length, with `longest_gap` its head); on the three demo timestamps it yields
2 gaps, longest ≈ 4.0 days, `total_days = 5`, `days_active = 2`,
`days_inactive = 3`; on a single timestamp it yields `1/1/0` and no gaps. -/
theorem claim_C3 :
    (∀ ts : List ℚ,
      List.Sorted (· ≤ ·) (ts.insertionSort (· ≤ ·)) ∧
      (ts.insertionSort (· ≤ ·)).Perm ts ∧
      List.Sorted gapGE (computeGapAnalysis ts).gaps ∧
      (computeGapAnalysis ts).gaps.Perm (consecutiveGaps (ts.insertionSort (· ≤ ·))) ∧
      (∀ g, g ∈ (computeGapAnalysis ts).gaps → 0 < g.length_days) ∧
      (computeGapAnalysis ts).longest_gap = (computeGapAnalysis ts).gaps.head?) ∧
    ((computeGapAnalysis gapDemoTs).gaps.length = 2 ∧
      (∃ g, (computeGapAnalysis gapDemoTs).longest_gap = some g ∧
        |g.length_days - 4| < 1/10) ∧
      (computeGapAnalysis gapDemoTs).total_days = 5 ∧
      (computeGapAnalysis gapDemoTs).days_active = 2 ∧
      (computeGapAnalysis gapDemoTs).days_inactive = 3) ∧
    ((computeGapAnalysis [19723 * 86400 + 36000]).total_days = 1 ∧
      (computeGapAnalysis [19723 * 86400 + 36000]).days_active = 1 ∧
      (computeGapAnalysis [19723 * 86400 + 36000]).days_inactive = 0 ∧
      (computeGapAnalysis [19723 * 86400 + 36000]).gaps = []) := by
  refine ⟨?_, ?_, ?_⟩
  · intro ts
    refine ⟨List.sorted_insertionSort _ ts, List.perm_insertionSort _ ts, ?_, ?_, ?_, ?_⟩
    · unfold computeGapAnalysis
      cases ts.insertionSort (· ≤ ·) with
      | nil => simp [gapAnalysisSorted]
      | cons t ts' =>
        simp only [gapAnalysisSorted]
        exact List.sorted_insertionSort gapGE _
    · unfold computeGapAnalysis
      cases ts.insertionSort (· ≤ ·) with
      | nil => simp [gapAnalysisSorted, consecutiveGaps]
      | cons t ts' =>
        simp only [gapAnalysisSorted]
        exact List.perm_insertionSort gapGE _
    · intro g hg
      revert hg
      unfold computeGapAnalysis
      cases ts.insertionSort (· ≤ ·) with
      | nil => intro hg; simp [gapAnalysisSorted] at hg
      | cons t ts' =>
        intro hg
        simp only [gapAnalysisSorted] at hg
        exact consecutiveGaps_pos _ g ((List.perm_insertionSort gapGE _).mem_iff.mp hg)
    · unfold computeGapAnalysis
      cases ts.insertionSort (· ≤ ·) with
      | nil => simp [gapAnalysisSorted]
      | cons t ts' => simp only [gapAnalysisSorted]
  · refine ⟨?_, ⟨⟨isoDateTime (19723 * 86400 + 39600), isoDateTime (19727 * 86400 + 36000), 95/24⟩, ?_, ?_⟩, ?_, ?_, ?_⟩ <;>
      norm_num [computeGapAnalysis, gapDemoTs, gapAnalysisSorted, consecutiveGaps, tsDate,
        countInactive, countInactiveAux, List.insertionSort, List.orderedInsert,
        List.dedup_cons_of_mem, List.dedup_cons_of_not_mem, gapGE, abs_lt]
  · refine ⟨?_, ?_, ?_, ?_⟩ <;>
      norm_num [computeGapAnalysis, gapAnalysisSorted, consecutiveGaps, tsDate,
        countInactive, countInactiveAux, List.insertionSort]

theorem claim_C3_witness :
    0 < (GapRecord.mk (isoDateTime (19723 * 86400 + 39600))
          (isoDateTime (19727 * 86400 + 36000)) (95/24)).length_days :=
  (claim_C3.1 gapDemoTs).2.2.2.2.1 _ (by
    norm_num [computeGapAnalysis, gapDemoTs, gapAnalysisSorted, consecutiveGaps,
      List.insertionSort, List.orderedInsert, gapGE])

/-! ### C4: period comparison -/

/-- Records on 2024-01-15 (10 msgs / 2 chats), 2024-01-20 (8 msgs / 1 chat),
2024-02-05 (20 msgs / 5 chats). -/
def periodDemoRecs : List DailyRecord :=
  [{ date := 19737, total_messages := 10, total_chats := 2 },
   { date := 19742, total_messages := 8, total_chats := 1 },
   { date := 19758, total_messages := 20, total_chats := 5 }]

/-- C4: `compute_period_comparison` buckets records by lexical prefix match
against the reference month/year keys (January rolls last-month over to
December of the previous year); `this_month`/`this_year` carry
`elapsed_days`, leap-year-aware `total_days` and pro-rata projections
(`actual * total/elapsed` rounded to 2 decimals, scale factor 1 when
`elapsed = 0`); `last_month`/`last_year` never carry projection fields; the
reference-2024-02-15 instance gives `this_month` 5 chats / 20 messages and
`last_month` 3 chats / 18 messages, with `total_days` 29 and 366. -/
theorem claim_C4 :
    (∀ (records : List DailyRecord) (ref : Ymd),
      (computePeriodComparison records ref).last_month.projection = none ∧
      (computePeriodComparison records ref).last_year.projection = none ∧
      (computePeriodComparison records ref).last_year =
        computePeriodBucket records (fun r => (recDateStr r).take 4 == toString (ref.year - 1)) ∧
      (ref.month = 1 → (computePeriodComparison records ref).last_month =
        computePeriodBucket records
          (fun r => (recDateStr r).take 7 == toString (ref.year - 1) ++ "-12")) ∧
      (ref.month ≠ 1 → (computePeriodComparison records ref).last_month =
        computePeriodBucket records
          (fun r => (recDateStr r).take 7 == toString ref.year ++ "-" ++ pad2 (ref.month - 1))) ∧
      (computePeriodComparison records ref).this_month =
        addPeriodProjections
          (computePeriodBucket records
            (fun r => (recDateStr r).take 7 == toString ref.year ++ "-" ++ pad2 ref.month))
          ref.day (daysInMonth ref.year ref.month) ∧
      (computePeriodComparison records ref).this_year =
        addPeriodProjections
          (computePeriodBucket records (fun r => (recDateStr r).take 4 == toString ref.year))
          ((daysFromCivil ref.year ref.month ref.day - daysFromCivil ref.year 1 1) + 1).toNat
          (if isLeap ref.year then 366 else 365)) ∧
    (∀ (stats : PeriodEntry) (elapsed total : ℕ), 0 < elapsed →
      (addPeriodProjections stats elapsed total).projection =
        some ⟨elapsed, total,
          pyRound2 ((stats.chats : ℚ) * ((total : ℚ) / (elapsed : ℚ))),
          pyRound2 ((stats.messages : ℚ) * ((total : ℚ) / (elapsed : ℚ)))⟩) ∧
    (∀ (stats : PeriodEntry) (total : ℕ),
      (addPeriodProjections stats 0 total).projection =
        some ⟨0, total, pyRound2 ((stats.chats : ℚ) * 1), pyRound2 ((stats.messages : ℚ) * 1)⟩) ∧
    ((computePeriodComparison periodDemoRecs ⟨2024, 2, 15⟩).this_month.chats = 5 ∧
      (computePeriodComparison periodDemoRecs ⟨2024, 2, 15⟩).this_month.messages = 20 ∧
      (computePeriodComparison periodDemoRecs ⟨2024, 2, 15⟩).last_month.chats = 3 ∧
      (computePeriodComparison periodDemoRecs ⟨2024, 2, 15⟩).last_month.messages = 18 ∧
      ((computePeriodComparison periodDemoRecs ⟨2024, 2, 15⟩).this_month.projection.map
        PeriodProjection.elapsed_days) = some 15 ∧
      ((computePeriodComparison periodDemoRecs ⟨2024, 2, 15⟩).this_month.projection.map
        PeriodProjection.total_days) = some 29 ∧
      ((computePeriodComparison periodDemoRecs ⟨2024, 2, 15⟩).this_year.projection.map
        PeriodProjection.total_days) = some 366) := by
  refine ⟨?_, ?_, ?_, ?_⟩
  · intro records ref
    refine ⟨rfl, rfl, rfl, ?_, ?_, rfl, rfl⟩
    · intro h1
      simp only [computePeriodComparison, if_pos h1]
    · intro h1
      simp only [computePeriodComparison, if_neg h1]
  · intro stats elapsed total h
    simp [addPeriodProjections, h]
  · intro stats total
    simp [addPeriodProjections]
  · refine ⟨?_, ?_, ?_, ?_, ?_, ?_, ?_⟩ <;> decide

theorem claim_C4_witness :
    (computePeriodComparison periodDemoRecs ⟨2024, 1, 5⟩).last_month =
      computePeriodBucket periodDemoRecs
        (fun r => (recDateStr r).take 7 == toString ((2024 : ℤ) - 1) ++ "-12") ∧
    (addPeriodProjections ⟨8, 30, 0, none⟩ 15 29).projection =
      some ⟨15, 29, pyRound2 ((8 : ℚ) * ((29 : ℚ) / (15 : ℚ))),
        pyRound2 ((30 : ℚ) * ((29 : ℚ) / (15 : ℚ)))⟩ :=
  ⟨(claim_C4.1 periodDemoRecs ⟨2024, 1, 5⟩).2.2.2.1 rfl,
   claim_C4.2.1 ⟨8, 30, 0, none⟩ 15 29 (by decide)⟩

/-! ### C6: top-N-per-year selectors -/

theorem alGet_alSet (k y : String) (v : ℕ) :
    ∀ buckets : List (String × ℕ),
      alGet (alSet buckets k v) y = if k = y then v else alGet buckets y
  | [] => by by_cases h : k = y <;> simp [alSet, alGet, h]
  | (k', c) :: rest => by
    by_cases hk : k' = k
    · subst hk
      by_cases hy : k' = y <;> simp [alSet, alGet, hy]
    · by_cases hy : k' = y
      · subst hy
        have : ¬ k = k' := fun h => hk h.symm
        simp [alSet, alGet, hk, this]
      · simp [alSet, alGet, hk, hy, alGet_alSet k y v rest]

theorem topRecordsPerYearAux_sublist (perYear : ℕ) :
    ∀ (rs : List DailyRecord) (buckets : List (String × ℕ)),
      List.Sublist (topRecordsPerYearAux perYear rs buckets) rs
  | [], _ => List.Sublist.refl _
  | r :: rs, buckets => by
    simp only [topRecordsPerYearAux]
    by_cases h : alGet buckets ((recDateStr r).take 4) < perYear
    · rw [if_pos h]
      exact List.Sublist.cons₂ r (topRecordsPerYearAux_sublist perYear rs _)
    · rw [if_neg h]
      exact List.Sublist.cons r (topRecordsPerYearAux_sublist perYear rs buckets)

theorem topRecordsPerYearAux_cap (perYear : ℕ) (y : String) :
    ∀ (rs : List DailyRecord) (buckets : List (String × ℕ)),
      alGet buckets y ≤ perYear →
      ((topRecordsPerYearAux perYear rs buckets).filter
          (fun r => (recDateStr r).take 4 == y)).length + alGet buckets y ≤ perYear
  | [], buckets, h => by simpa [topRecordsPerYearAux] using h
  | r :: rs, buckets, h => by
    simp only [topRecordsPerYearAux]
    by_cases hc : alGet buckets ((recDateStr r).take 4) < perYear
    · rw [if_pos hc]
      by_cases hy : (recDateStr r).take 4 = y
      · have hset : alGet (alSet buckets ((recDateStr r).take 4)
              (alGet buckets ((recDateStr r).take 4) + 1)) y = alGet buckets y + 1 := by
          rw [alGet_alSet, if_pos hy, hy]
        have hbound : alGet buckets y + 1 ≤ perYear := by rw [hy] at hc; omega
        have ih := topRecordsPerYearAux_cap perYear y rs
          (alSet buckets ((recDateStr r).take 4) (alGet buckets ((recDateStr r).take 4) + 1))
          (by rw [hset]; exact hbound)
        rw [hset] at ih
        rw [List.filter_cons, if_pos (by simpa using hy)]
        simp only [List.length_cons]
        omega
      · have hset : alGet (alSet buckets ((recDateStr r).take 4)
              (alGet buckets ((recDateStr r).take 4) + 1)) y = alGet buckets y := by
          rw [alGet_alSet, if_neg hy]
        have ih := topRecordsPerYearAux_cap perYear y rs
          (alSet buckets ((recDateStr r).take 4) (alGet buckets ((recDateStr r).take 4) + 1))
          (by rw [hset]; exact h)
        rw [hset] at ih
        rw [List.filter_cons, if_neg (by simpa using hy)]
        exact ih
    · rw [if_neg hc]
      exact topRecordsPerYearAux_cap perYear y rs buckets h

theorem gapBucketsAdd_keys (perYear : ℕ) (k : String) (g : GapRecord) :
    ∀ bs : List (String × List GapRecord),
      (gapBucketsAdd perYear bs k g).map Prod.fst =
        if k ∈ bs.map Prod.fst then bs.map Prod.fst else bs.map Prod.fst ++ [k]
  | [] => by simp [gapBucketsAdd]
  | (k', b) :: rest => by
    by_cases hk : k' = k
    · subst hk
      simp [gapBucketsAdd]
    · have hne : ¬ k = k' := fun h => hk h.symm
      simp only [gapBucketsAdd, if_neg hk, List.map_cons, List.mem_cons]
      rw [gapBucketsAdd_keys perYear k g rest]
      by_cases hm : k ∈ rest.map Prod.fst <;> simp [hm, hne]

theorem gapBucketsAdd_WF (perYear : ℕ) (g : GapRecord) :
    ∀ bs, gapBucketsWF perYear bs →
      gapBucketsWF perYear (gapBucketsAdd perYear bs (g.start_timestamp.take 4) g)
  | [], _ => by
    refine ⟨by simp [gapBucketsAdd], ?_⟩
    intro p hp
    simp only [gapBucketsAdd, List.mem_singleton] at hp
    refine ⟨?_, ?_⟩
    · rw [hp]
      dsimp only
      split
      · next hpos => simpa using hpos
      · simp
    · intro x hx
      rw [hp] at hx ⊢
      dsimp only at hx ⊢
      split at hx
      · simp only [List.mem_singleton] at hx
        rw [hx]
      · simp at hx
  | (k', b) :: rest, hwf => by
    obtain ⟨hnd, hp⟩ := hwf
    by_cases hk : k' = g.start_timestamp.take 4
    · refine ⟨?_, ?_⟩
      · simpa [gapBucketsAdd, if_pos hk] using hnd
      · intro p hmem
        simp only [gapBucketsAdd, if_pos hk, List.mem_cons] at hmem
        rcases hmem with rfl | hmem
        · have hb := hp (k', b) (List.mem_cons_self _ _)
          constructor
          · dsimp only
            split
            · simp only [List.length_append, List.length_singleton]
              omega
            · exact hb.1
          · intro x hx
            dsimp only at hx ⊢
            split at hx
            · rcases List.mem_append.mp hx with hx' | hx'
              · exact hb.2 x hx'
              · simp only [List.mem_singleton] at hx'
                subst hx'
                exact hk.symm
            · exact hb.2 x hx
        · exact hp p (List.mem_cons_of_mem _ hmem)
    · have hrest : gapBucketsWF perYear rest :=
        ⟨(List.nodup_cons.mp hnd).2, fun p hm => hp p (List.mem_cons_of_mem _ hm)⟩
      have ih := gapBucketsAdd_WF perYear g rest hrest
      refine ⟨?_, ?_⟩
      · simp only [gapBucketsAdd, if_neg hk, List.map_cons]
        rw [List.nodup_cons]
        refine ⟨?_, ih.1⟩
        rw [gapBucketsAdd_keys]
        have hk' : k' ∉ rest.map Prod.fst := (List.nodup_cons.mp hnd).1
        by_cases hm : g.start_timestamp.take 4 ∈ rest.map Prod.fst
        · simpa [hm] using hk'
        · simp only [if_neg hm, List.mem_append, List.mem_singleton]
          rintro (h1 | h1)
          · exact hk' h1
          · exact hk h1
      · intro p hmem
        simp only [gapBucketsAdd, if_neg hk, List.mem_cons] at hmem
        rcases hmem with rfl | hmem
        · exact hp _ (List.mem_cons_self _ _)
        · exact ih.2 p hmem

theorem gapYearBuckets_WF (gaps : List GapRecord) (perYear : ℕ) :
    gapBucketsWF perYear (gapYearBuckets gaps perYear) := by
  have key : ∀ (l : List GapRecord) (bs : List (String × List GapRecord)),
      gapBucketsWF perYear bs →
      gapBucketsWF perYear
        (l.foldl (fun bs g => gapBucketsAdd perYear bs (g.start_timestamp.take 4) g) bs) := by
    intro l
    induction l with
    | nil => intro bs h; exact h
    | cons g gs ih =>
      intro bs h
      exact ih _ (gapBucketsAdd_WF perYear g bs h)
  exact key gaps [] ⟨List.nodup_nil, by simp⟩

theorem gapBucketsWF_filter_flatten (perYear : ℕ) (y : String) :
    ∀ bs, gapBucketsWF perYear bs →
      (((bs.map Prod.snd).flatten).filter
          (fun g => g.start_timestamp.take 4 == y)).length ≤ perYear
  | [], _ => by simp
  | (k, b) :: rest, hwf => by
    obtain ⟨hnd, hp⟩ := hwf
    have hrest : gapBucketsWF perYear rest :=
      ⟨(List.nodup_cons.mp hnd).2, fun p hm => hp p (List.mem_cons_of_mem _ hm)⟩
    simp only [List.map_cons, List.flatten_cons, List.filter_append, List.length_append]
    by_cases hk : k = y
    · have hb := hp (k, b) (List.mem_cons_self _ _)
      have hrest0 : ((rest.map Prod.snd).flatten.filter
          (fun g => g.start_timestamp.take 4 == y)).length = 0 := by
        rw [List.length_eq_zero]
        rw [List.filter_eq_nil_iff]
        intro g hg
        rw [List.mem_flatten] at hg
        obtain ⟨l, hl, hgl⟩ := hg
        rw [List.mem_map] at hl
        obtain ⟨p, hpm, rfl⟩ := hl
        have := (hp p (List.mem_cons_of_mem _ hpm)).2 g hgl
        have hkey : p.1 ≠ y := by
          intro hcon
          have : k ∉ rest.map Prod.fst := (List.nodup_cons.mp hnd).1
          exact this (by
            rw [List.mem_map]
            exact ⟨p, hpm, by rw [hcon, hk]⟩)
        simp only [beq_iff_eq]
        rw [this]
        exact hkey
      rw [hrest0]
      have hb1 : b.length ≤ perYear := by simpa using hb.1
      have : (b.filter (fun g => g.start_timestamp.take 4 == y)).length ≤ b.length :=
        List.length_filter_le _ _
      omega
    · have hb0 : (b.filter (fun g => g.start_timestamp.take 4 == y)).length = 0 := by
        rw [List.length_eq_zero, List.filter_eq_nil_iff]
        intro g hg
        have := (hp (k, b) (List.mem_cons_self _ _)).2 g hg
        simp only [beq_iff_eq]
        rw [this]
        exact hk
      rw [hb0]
      simpa using gapBucketsWF_filter_flatten perYear y rest hrest

/-- C6: the top-days selector returns a subsequence of its (pre-sorted) input
in the original order with at most N records per calendar year (first four
characters of the date string), while the top-gaps selector caps at most N
gaps per calendar year of the gap's start timestamp and re-sorts the merged
result globally descending by `length_days`; the two selectors keep these
distinct orderings. -/
theorem claim_C6 :
    (∀ (records : List DailyRecord) (perYear : ℕ),
      List.Sublist (topRecordsPerYear records perYear) records) ∧
    (∀ (records : List DailyRecord) (perYear : ℕ) (y : String),
      ((topRecordsPerYear records perYear).filter
          (fun r => (recDateStr r).take 4 == y)).length ≤ perYear) ∧
    (∀ (gaps : List GapRecord) (perYear : ℕ),
      List.Sorted gapGE (topGapsPerYear gaps perYear)) ∧
    (∀ (gaps : List GapRecord) (perYear : ℕ),
      (topGapsPerYear gaps perYear).Perm
        (((gapYearBuckets gaps perYear).map Prod.snd).flatten)) ∧
    (∀ (gaps : List GapRecord) (perYear : ℕ) (y : String),
      ((topGapsPerYear gaps perYear).filter
          (fun g => g.start_timestamp.take 4 == y)).length ≤ perYear) := by
  refine ⟨?_, ?_, ?_, ?_, ?_⟩
  · intro records perYear
    exact topRecordsPerYearAux_sublist perYear records []
  · intro records perYear y
    have := topRecordsPerYearAux_cap perYear y records [] (by simp [alGet])
    simpa [topRecordsPerYear, alGet] using this
  · intro gaps perYear
    exact List.sorted_insertionSort gapGE _
  · intro gaps perYear
    exact List.perm_insertionSort gapGE _
  · intro gaps perYear y
    have hperm : (topGapsPerYear gaps perYear).Perm
        (((gapYearBuckets gaps perYear).map Prod.snd).flatten) :=
      List.perm_insertionSort gapGE _
    have := (hperm.filter (fun g => g.start_timestamp.take 4 == y)).length_eq
    rw [this]
    exact gapBucketsWF_filter_flatten perYear y _ (gapYearBuckets_WF gaps perYear)

/-! ### C8: weekly/monthly bucket averages come from summed raw totals -/

theorem mbGet_monthAdd (k m : String) (r : DailyRecord) :
    ∀ l : List (String × MonthBucket),
      mbGet (monthAdd l k r) m = if k = m then mbAdd (mbGet l m) r else mbGet l m
  | [] => by by_cases h : k = m <;> simp [monthAdd, mbGet, h]
  | (k', b) :: rest => by
    by_cases h1 : k' = k
    · subst h1
      by_cases h2 : k' = m <;> simp [monthAdd, mbGet, h2]
    · by_cases h2 : k' = m
      · subst h2
        have hkm : ¬ k = k' := fun h => h1 h.symm
        simp [monthAdd, mbGet, h1, hkm]
      · simp [monthAdd, mbGet, h1, h2, mbGet_monthAdd k m r rest]

theorem mbGet_foldl (mo : String) :
    ∀ (rs : List DailyRecord) (acc : List (String × MonthBucket)),
      mbGet (rs.foldl (fun m r => monthAdd m ((recDateStr r).take 7) r) acc) mo =
        (rs.filter (fun r => (recDateStr r).take 7 == mo)).foldl mbAdd (mbGet acc mo)
  | [], _ => rfl
  | r :: rs, acc => by
    simp only [List.foldl_cons, List.filter_cons]
    by_cases h : (recDateStr r).take 7 = mo
    · rw [if_pos (by simpa using h)]
      rw [mbGet_foldl mo rs _, mbGet_monthAdd, if_pos h, List.foldl_cons]
    · rw [if_neg (by simpa using h)]
      rw [mbGet_foldl mo rs _, mbGet_monthAdd, if_neg h]

theorem foldl_mbAdd_msgs (b : MonthBucket) :
    ∀ l : List DailyRecord,
      (l.foldl mbAdd b).total_msgs_raw =
        b.total_msgs_raw + (l.map DailyRecord.total_messages).sum
  | [] => by simp
  | r :: l => by
    rw [List.foldl_cons, foldl_mbAdd_msgs (mbAdd b r) l]
    simp only [mbAdd, List.map_cons, List.sum_cons]
    omega

theorem foldl_mbAdd_chats (b : MonthBucket) :
    ∀ l : List DailyRecord,
      (l.foldl mbAdd b).total_chats_raw =
        b.total_chats_raw + (l.map DailyRecord.total_chats).sum
  | [] => by simp
  | r :: l => by
    rw [List.foldl_cons, foldl_mbAdd_chats (mbAdd b r) l]
    simp only [mbAdd, List.map_cons, List.sum_cons]
    omega

theorem buildMonthly_msgs (records : List DailyRecord) (mo : String) :
    (mbGet (buildMonthlyBuckets (sortRecordsByDate records)) mo).total_msgs_raw =
      ((records.filter (fun r => (recDateStr r).take 7 == mo)).map
        DailyRecord.total_messages).sum := by
  rw [buildMonthlyBuckets, mbGet_foldl, foldl_mbAdd_msgs]
  have hperm : (sortRecordsByDate records).Perm records := List.perm_insertionSort _ _
  have := ((hperm.filter (fun r => (recDateStr r).take 7 == mo)).map
    DailyRecord.total_messages).sum_eq
  simp [mbGet, this]

theorem buildMonthly_chats (records : List DailyRecord) (mo : String) :
    (mbGet (buildMonthlyBuckets (sortRecordsByDate records)) mo).total_chats_raw =
      ((records.filter (fun r => (recDateStr r).take 7 == mo)).map
        DailyRecord.total_chats).sum := by
  rw [buildMonthlyBuckets, mbGet_foldl, foldl_mbAdd_chats]
  have hperm : (sortRecordsByDate records).Perm records := List.perm_insertionSort _ _
  have := ((hperm.filter (fun r => (recDateStr r).take 7 == mo)).map
    DailyRecord.total_chats).sum_eq
  simp [mbGet, this]

theorem wbGet_weekAdd_msgs (k mon m : String) (r : DailyRecord) :
    ∀ l : List (String × WeekBucket),
      (wbGet (weekAdd l k mon r) m).total_msgs =
        if k = m then (wbGet l m).total_msgs + r.total_messages else (wbGet l m).total_msgs
  | [] => by by_cases h : k = m <;> simp [weekAdd, wbGet, wbAdd, h]
  | (k', b) :: rest => by
    by_cases h1 : k' = k
    · subst h1
      by_cases h2 : k' = m <;> simp [weekAdd, wbGet, wbAdd, h2]
    · by_cases h2 : k' = m
      · subst h2
        have hkm : ¬ k = k' := fun h => h1 h.symm
        simp [weekAdd, wbGet, h1, hkm]
      · simp [weekAdd, wbGet, h1, h2, wbGet_weekAdd_msgs k mon m r rest]

theorem wbGet_weekAdd_chats (k mon m : String) (r : DailyRecord) :
    ∀ l : List (String × WeekBucket),
      (wbGet (weekAdd l k mon r) m).total_chats =
        if k = m then (wbGet l m).total_chats + r.total_chats else (wbGet l m).total_chats
  | [] => by by_cases h : k = m <;> simp [weekAdd, wbGet, wbAdd, h]
  | (k', b) :: rest => by
    by_cases h1 : k' = k
    · subst h1
      by_cases h2 : k' = m <;> simp [weekAdd, wbGet, wbAdd, h2]
    · by_cases h2 : k' = m
      · subst h2
        have hkm : ¬ k = k' := fun h => h1 h.symm
        simp [weekAdd, wbGet, h1, hkm]
      · simp [weekAdd, wbGet, h1, h2, wbGet_weekAdd_chats k mon m r rest]

theorem wbGet_foldl_msgs (mo : String) :
    ∀ (rs : List DailyRecord) (acc : List (String × WeekBucket)),
      (wbGet (rs.foldl
          (fun w r => weekAdd w (isoWeekKey r.date) (isoDateStr (mondayOf r.date)) r) acc)
        mo).total_msgs =
        (wbGet acc mo).total_msgs +
          ((rs.filter (fun r => isoWeekKey r.date == mo)).map DailyRecord.total_messages).sum
  | [], _ => by simp
  | r :: rs, acc => by
    simp only [List.foldl_cons, List.filter_cons]
    by_cases h : isoWeekKey r.date = mo
    · rw [if_pos (by simpa using h)]
      rw [wbGet_foldl_msgs mo rs _, wbGet_weekAdd_msgs, if_pos h]
      simp only [List.map_cons, List.sum_cons]
      omega
    · rw [if_neg (by simpa using h)]
      rw [wbGet_foldl_msgs mo rs _, wbGet_weekAdd_msgs, if_neg h]

theorem wbGet_foldl_chats (mo : String) :
    ∀ (rs : List DailyRecord) (acc : List (String × WeekBucket)),
      (wbGet (rs.foldl
          (fun w r => weekAdd w (isoWeekKey r.date) (isoDateStr (mondayOf r.date)) r) acc)
        mo).total_chats =
        (wbGet acc mo).total_chats +
          ((rs.filter (fun r => isoWeekKey r.date == mo)).map DailyRecord.total_chats).sum
  | [], _ => by simp
  | r :: rs, acc => by
    simp only [List.foldl_cons, List.filter_cons]
    by_cases h : isoWeekKey r.date = mo
    · rw [if_pos (by simpa using h)]
      rw [wbGet_foldl_chats mo rs _, wbGet_weekAdd_chats, if_pos h]
      simp only [List.map_cons, List.sum_cons]
      omega
    · rw [if_neg (by simpa using h)]
      rw [wbGet_foldl_chats mo rs _, wbGet_weekAdd_chats, if_neg h]

theorem buildWeekly_msgs (records : List DailyRecord) (mo : String) :
    (wbGet (buildWeeklyBuckets (sortRecordsByDate records)) mo).total_msgs =
      ((records.filter (fun r => isoWeekKey r.date == mo)).map
        DailyRecord.total_messages).sum := by
  rw [buildWeeklyBuckets, wbGet_foldl_msgs]
  have hperm : (sortRecordsByDate records).Perm records := List.perm_insertionSort _ _
  have := ((hperm.filter (fun r => isoWeekKey r.date == mo)).map
    DailyRecord.total_messages).sum_eq
  simp [wbGet, this]

theorem buildWeekly_chats (records : List DailyRecord) (mo : String) :
    (wbGet (buildWeeklyBuckets (sortRecordsByDate records)) mo).total_chats =
      ((records.filter (fun r => isoWeekKey r.date == mo)).map
        DailyRecord.total_chats).sum := by
  rw [buildWeeklyBuckets, wbGet_foldl_chats]
  have hperm : (sortRecordsByDate records).Perm records := List.perm_insertionSort _ _
  have := ((hperm.filter (fun r => isoWeekKey r.date == mo)).map
    DailyRecord.total_chats).sum_eq
  simp [wbGet, this]

/-- A day with 10 messages over 3 chats (per-day rounded average 3.33). -/
def contrastRec1 : DailyRecord :=
  { date := 19737, total_messages := 10, total_chats := 3,
    avg_messages_per_chat := pyRound2 ((10 : ℚ) / 3) }

/-- A same-month day with 0 messages over 1 chat (per-day average 0). -/
def contrastRec2 : DailyRecord :=
  { date := 19737, total_messages := 0, total_chats := 1 }

/-- Two records in the same month whose raw-total average differs from the
mean of their already-rounded per-day averages. -/
def contrastRecs : List DailyRecord := [contrastRec1, contrastRec2]

/-- C8: every weekly and monthly bucket's `avg_messages` equals
`round(Σ raw messages / Σ raw chats, 2)` over the bucket's member days (0
when the summed chat count is 0) — computed from summed raw totals, not from
the per-day already-rounded `avg_messages_per_chat` values, as the concrete
contrast instance shows. -/
theorem claim_C8 :
    (∀ records : List DailyRecord,
      (computeMonthlyData records).avg_messages =
        (computeMonthlyData records).months.map (fun mo =>
          let msgs := ((records.filter (fun r => (recDateStr r).take 7 == mo)).map
            DailyRecord.total_messages).sum
          let chs := ((records.filter (fun r => (recDateStr r).take 7 == mo)).map
            DailyRecord.total_chats).sum
          if 0 < chs then pyRound2 ((msgs : ℚ) / (chs : ℚ)) else 0)) ∧
    (∀ records : List DailyRecord,
      (computeWeeklyData records).avg_messages =
        (((buildWeeklyBuckets (sortRecordsByDate records)).map Prod.fst).insertionSort
            (· ≤ ·)).map (fun k =>
          let msgs := ((records.filter (fun r => isoWeekKey r.date == k)).map
            DailyRecord.total_messages).sum
          let chs := ((records.filter (fun r => isoWeekKey r.date == k)).map
            DailyRecord.total_chats).sum
          if 0 < chs then pyRound2 ((msgs : ℚ) / (chs : ℚ)) else 0)) ∧
    ((computeMonthlyData contrastRecs).avg_messages = [pyRound2 ((10 : ℚ) / 4)] ∧
      pyRound2 ((pyRound2 ((10 : ℚ) / 3) + pyRound2 ((0 : ℚ) / 1)) / 2) ≠
        pyRound2 ((10 : ℚ) / 4)) := by
  refine ⟨?_, ?_, ?_, ?_⟩
  · intro records
    simp only [computeMonthlyData]
    refine List.map_congr_left ?_
    intro mo _
    rw [buildMonthly_msgs, buildMonthly_chats]
  · intro records
    simp only [computeWeeklyData, weeklySeriesFromBuckets]
    refine List.map_congr_left ?_
    intro k _
    rw [buildWeekly_msgs, buildWeekly_chats]
  · have e1 : recDateStr contrastRec1 = "2024-01-15" := by decide
    have e2 : recDateStr contrastRec2 = "2024-01-15" := by decide
    have t1 : ("2024-01-15" : String).take 7 = "2024-01" := by decide
    have c1 : contrastRec1.total_messages = 10 ∧ contrastRec1.total_chats = 3 := by decide
    have c2 : contrastRec2.total_messages = 0 ∧ contrastRec2.total_chats = 1 := by decide
    simp only [computeMonthlyData, contrastRecs, sortRecordsByDate, List.insertionSort,
      List.orderedInsert, e1, e2, le_refl, if_true, t1, buildMonthlyBuckets, List.foldl,
      monthAdd, mbAdd, mbGet, List.map, c1.1, c1.2, c2.1, c2.2]
    norm_num
  · norm_num [pyRound2, roundHalfEven]

/-! ### C5: rolling-average window sizes per series -/

/-- Five records in five consecutive ISO weeks (Mondays of 2024-W01..W05);
only the first carries user words. -/
def c5r1 : DailyRecord := { date := 19723, user_words := 10, user_msgs := 1 }

def c5r2 : DailyRecord := { date := 19730, user_msgs := 1 }

def c5r3 : DailyRecord := { date := 19737, user_msgs := 1 }

def c5r4 : DailyRecord := { date := 19744, user_msgs := 1 }

def c5r5 : DailyRecord := { date := 19751, user_msgs := 1 }

def c5recs : List DailyRecord := [c5r1, c5r2, c5r3, c5r4, c5r5]

/-- Four records in four consecutive months (2024-01..04). -/
def c5m1 : DailyRecord := { date := 19723, user_words := 10, user_msgs := 1 }

def c5m2 : DailyRecord := { date := 19754, user_msgs := 1 }

def c5m3 : DailyRecord := { date := 19783, user_msgs := 1 }

def c5m4 : DailyRecord := { date := 19814, user_msgs := 1 }

def c5mrecs : List DailyRecord := [c5m1, c5m2, c5m3, c5m4]

/-- Content bucket with 10 user words over 1 user message. -/
def c5b1 : ContentBucket := { user_words := 10, user_msgs := 1 }

/-- Content bucket with 1 user message and no words. -/
def c5b0 : ContentBucket := { user_msgs := 1 }

theorem contentWeeklyDemoEval : (computeContentWeeklyData c5recs).avg_user_words =
    wrapWithRolling [10, 0, 0, 0, 0] := by
  have e1 : recDateStr c5r1 = "2024-01-01" := by decide
  have e2 : recDateStr c5r2 = "2024-01-08" := by decide
  have e3 : recDateStr c5r3 = "2024-01-15" := by decide
  have e4 : recDateStr c5r4 = "2024-01-22" := by decide
  have e5 : recDateStr c5r5 = "2024-01-29" := by decide
  have le1 : ("2024-01-01" : String) ≤ "2024-01-08" := by
    rw [String.le_iff_toList_le]; decide
  have le2 : ("2024-01-08" : String) ≤ "2024-01-15" := by
    rw [String.le_iff_toList_le]; decide
  have le3 : ("2024-01-15" : String) ≤ "2024-01-22" := by
    rw [String.le_iff_toList_le]; decide
  have le4 : ("2024-01-22" : String) ≤ "2024-01-29" := by
    rw [String.le_iff_toList_le]; decide
  have hsort : sortRecordsByDate c5recs = c5recs := by
    simp only [c5recs, sortRecordsByDate, List.insertionSort, List.orderedInsert,
      e1, e2, e3, e4, e5, le1, le2, le3, le4, if_true]
  have k1 : isoWeekKey c5r1.date = "2024-W01" := by decide
  have k2 : isoWeekKey c5r2.date = "2024-W02" := by decide
  have k3 : isoWeekKey c5r3.date = "2024-W03" := by decide
  have k4 : isoWeekKey c5r4.date = "2024-W04" := by decide
  have k5 : isoWeekKey c5r5.date = "2024-W05" := by decide
  have m1 : isoDateStr (mondayOf c5r1.date) = "2024-01-01" := by decide
  have m2 : isoDateStr (mondayOf c5r2.date) = "2024-01-08" := by decide
  have m3 : isoDateStr (mondayOf c5r3.date) = "2024-01-15" := by decide
  have m4 : isoDateStr (mondayOf c5r4.date) = "2024-01-22" := by decide
  have m5 : isoDateStr (mondayOf c5r5.date) = "2024-01-29" := by decide
  have cb1 : contentOf c5r1 = c5b1 := by decide
  have cb2 : contentOf c5r2 = c5b0 := by decide
  have cb3 : contentOf c5r3 = c5b0 := by decide
  have cb4 : contentOf c5r4 = c5b0 := by decide
  have cb5 : contentOf c5r5 = c5b0 := by decide
  have n12 : ("2024-W01" : String) ≠ "2024-W02" := by decide
  have n13 : ("2024-W01" : String) ≠ "2024-W03" := by decide
  have n14 : ("2024-W01" : String) ≠ "2024-W04" := by decide
  have n15 : ("2024-W01" : String) ≠ "2024-W05" := by decide
  have n23 : ("2024-W02" : String) ≠ "2024-W03" := by decide
  have n24 : ("2024-W02" : String) ≠ "2024-W04" := by decide
  have n25 : ("2024-W02" : String) ≠ "2024-W05" := by decide
  have n34 : ("2024-W03" : String) ≠ "2024-W04" := by decide
  have n35 : ("2024-W03" : String) ≠ "2024-W05" := by decide
  have n45 : ("2024-W04" : String) ≠ "2024-W05" := by decide
  have hfold : c5recs.foldl
      (fun w r => contentWeekAdd w (isoWeekKey r.date) (isoDateStr (mondayOf r.date)) r) [] =
      [("2024-W01", ⟨"2024-01-01", c5b1⟩), ("2024-W02", ⟨"2024-01-08", c5b0⟩),
       ("2024-W03", ⟨"2024-01-15", c5b0⟩), ("2024-W04", ⟨"2024-01-22", c5b0⟩),
       ("2024-W05", ⟨"2024-01-29", c5b0⟩)] := by
    simp only [c5recs, List.foldl, contentWeekAdd, k1, k2, k3, k4, k5, m1, m2, m3, m4, m5,
      cb1, cb2, cb3, cb4, cb5, n12, n13, n14, n15, n23, n24, n25, n34, n35, n45,
      if_neg, if_pos, ne_eq, not_false_iff]
  have wle1 : ("2024-W01" : String) ≤ "2024-W02" := by rw [String.le_iff_toList_le]; decide
  have wle2 : ("2024-W02" : String) ≤ "2024-W03" := by rw [String.le_iff_toList_le]; decide
  have wle3 : ("2024-W03" : String) ≤ "2024-W04" := by rw [String.le_iff_toList_le]; decide
  have wle4 : ("2024-W04" : String) ≤ "2024-W05" := by rw [String.le_iff_toList_le]; decide
  have hkeys : List.insertionSort (α := String) (· ≤ ·)
      ["2024-W01", "2024-W02", "2024-W03", "2024-W04", "2024-W05"] =
      ["2024-W01", "2024-W02", "2024-W03", "2024-W04", "2024-W05"] := by
    simp only [List.insertionSort, List.orderedInsert, wle1, wle2, wle3, wle4, if_true]
  simp only [computeContentWeeklyData, hsort, hfold, List.map_cons, List.map_nil, hkeys,
    cwbGet, n12, n13, n14, n15, n23, n24, n25, n34, n35, n45, if_neg, if_pos, ne_eq,
    contentMetricsFromRecords, contentPeriodDataOf, if_false, ite_false, ite_true, if_true]
  norm_num [safeDiv, pyRound2, roundHalfEven, c5b1, c5b0, wrapWithRolling]

theorem contentMonthlyDemoEval : (computeContentMonthlyData c5mrecs).avg_user_words =
    wrapWithRolling [10, 0, 0, 0] := by
  have e1 : recDateStr c5m1 = "2024-01-01" := by decide
  have e2 : recDateStr c5m2 = "2024-02-01" := by decide
  have e3 : recDateStr c5m3 = "2024-03-01" := by decide
  have e4 : recDateStr c5m4 = "2024-04-01" := by decide
  have le1 : ("2024-01-01" : String) ≤ "2024-02-01" := by
    rw [String.le_iff_toList_le]; decide
  have le2 : ("2024-02-01" : String) ≤ "2024-03-01" := by
    rw [String.le_iff_toList_le]; decide
  have le3 : ("2024-03-01" : String) ≤ "2024-04-01" := by
    rw [String.le_iff_toList_le]; decide
  have hsort : sortRecordsByDate c5mrecs = c5mrecs := by
    simp only [c5mrecs, sortRecordsByDate, List.insertionSort, List.orderedInsert,
      e1, e2, e3, e4, le1, le2, le3, if_true]
  have t1 : ("2024-01-01" : String).take 7 = "2024-01" := by decide
  have t2 : ("2024-02-01" : String).take 7 = "2024-02" := by decide
  have t3 : ("2024-03-01" : String).take 7 = "2024-03" := by decide
  have t4 : ("2024-04-01" : String).take 7 = "2024-04" := by decide
  have cb1 : contentOf c5m1 = c5b1 := by decide
  have cb2 : contentOf c5m2 = c5b0 := by decide
  have cb3 : contentOf c5m3 = c5b0 := by decide
  have cb4 : contentOf c5m4 = c5b0 := by decide
  have n12 : ("2024-01" : String) ≠ "2024-02" := by decide
  have n13 : ("2024-01" : String) ≠ "2024-03" := by decide
  have n14 : ("2024-01" : String) ≠ "2024-04" := by decide
  have n23 : ("2024-02" : String) ≠ "2024-03" := by decide
  have n24 : ("2024-02" : String) ≠ "2024-04" := by decide
  have n34 : ("2024-03" : String) ≠ "2024-04" := by decide
  have hfold : c5mrecs.foldl
      (fun m r => contentMonthAdd m ((recDateStr r).take 7) r) [] =
      [("2024-01", c5b1), ("2024-02", c5b0), ("2024-03", c5b0), ("2024-04", c5b0)] := by
    simp only [c5mrecs, List.foldl, contentMonthAdd, e1, e2, e3, e4, t1, t2, t3, t4,
      cb1, cb2, cb3, cb4, n12, n13, n14, n23, n24, n34, if_neg, if_pos, ne_eq,
      not_false_iff]
  have mle1 : ("2024-01" : String) ≤ "2024-02" := by rw [String.le_iff_toList_le]; decide
  have mle2 : ("2024-02" : String) ≤ "2024-03" := by rw [String.le_iff_toList_le]; decide
  have mle3 : ("2024-03" : String) ≤ "2024-04" := by rw [String.le_iff_toList_le]; decide
  have hkeys : List.insertionSort (α := String) (· ≤ ·)
      ["2024-01", "2024-02", "2024-03", "2024-04"] =
      ["2024-01", "2024-02", "2024-03", "2024-04"] := by
    simp only [List.insertionSort, List.orderedInsert, mle1, mle2, mle3, if_true]
  simp only [computeContentMonthlyData, hsort, hfold, List.map_cons, List.map_nil, hkeys,
    cbGet, n12, n13, n14, n23, n24, n34, if_neg, if_pos, ne_eq,
    contentMetricsFromRecords, contentPeriodDataOf, if_false, ite_false, ite_true, if_true]
  norm_num [safeDiv, pyRound2, roundHalfEven, c5b1, c5b0, wrapWithRolling]

theorem claim_C5_counterexample :
    ((computeContentWeeklyData c5recs).avg_user_words.avg_7d ≠
      (rollingAvg ((computeContentWeeklyData c5recs).avg_user_words.values) 4).map pyRound2) ∧
    ((computeContentMonthlyData c5mrecs).avg_user_words.avg_7d ≠
      (rollingAvg ((computeContentMonthlyData c5mrecs).avg_user_words.values) 3).map pyRound2) := by
  constructor
  · rw [contentWeeklyDemoEval]
    norm_num [wrapWithRolling, rollingAvg, List.range_succ, pyRound2, roundHalfEven]
  · rw [contentMonthlyDemoEval]
    norm_num [wrapWithRolling, rollingAvg, List.range_succ, pyRound2, roundHalfEven]

/-- C5 (amended): windows 7/28 (plus lifetime) apply to the daily
chats/avg-messages/messages series, windows 4/12 to the weekly
chats/messages/avg-messages series, and window 3 to the monthly
chats/messages series — but the content-metric series (avg_user_words,
avg_asst_words, response_ratio, code percentages) are smoothed with windows
7 and 28 at every granularity (daily, weekly and monthly alike), not with
4/12 weekly or 3 monthly. -/
theorem claim_C5 :
    ∀ records : List DailyRecord,
      ((computeChartData records).chats =
        buildChartSeries ((computeChartData records).chats.values) ∧
       (computeChartData records).avg_messages =
        buildChartSeries ((computeChartData records).avg_messages.values) ∧
       (computeChartData records).total_messages =
        buildChartSeries ((computeChartData records).total_messages.values)) ∧
      ((computeWeeklyData records).chats_avg_4w =
        fmtRolling (((computeWeeklyData records).chats).map (fun n => (n : ℚ))) 4 ∧
       (computeWeeklyData records).chats_avg_12w =
        fmtRolling (((computeWeeklyData records).chats).map (fun n => (n : ℚ))) 12 ∧
       (computeWeeklyData records).messages_avg_4w =
        fmtRolling (((computeWeeklyData records).messages).map (fun n => (n : ℚ))) 4 ∧
       (computeWeeklyData records).messages_avg_12w =
        fmtRolling (((computeWeeklyData records).messages).map (fun n => (n : ℚ))) 12 ∧
       (computeWeeklyData records).avg_messages_avg_4w =
        fmtRolling ((computeWeeklyData records).avg_messages) 4 ∧
       (computeWeeklyData records).avg_messages_avg_12w =
        fmtRolling ((computeWeeklyData records).avg_messages) 12) ∧
      ((computeMonthlyData records).chats_avg_3m =
        fmtRolling (((computeMonthlyData records).chats).map (fun n => (n : ℚ))) 3 ∧
       (computeMonthlyData records).messages_avg_3m =
        fmtRolling (((computeMonthlyData records).messages).map (fun n => (n : ℚ))) 3) ∧
      ((computeContentChartData records).avg_user_words =
        wrapWithRolling ((computeContentChartData records).avg_user_words.values) ∧
       (computeContentChartData records).response_ratio =
        wrapWithRolling ((computeContentChartData records).response_ratio.values)) ∧
      ((computeContentWeeklyData records).avg_user_words =
        wrapWithRolling ((computeContentWeeklyData records).avg_user_words.values) ∧
       (computeContentWeeklyData records).avg_asst_words =
        wrapWithRolling ((computeContentWeeklyData records).avg_asst_words.values) ∧
       (computeContentWeeklyData records).response_ratio =
        wrapWithRolling ((computeContentWeeklyData records).response_ratio.values) ∧
       (computeContentWeeklyData records).code_pct_user =
        wrapWithRolling ((computeContentWeeklyData records).code_pct_user.values) ∧
       (computeContentWeeklyData records).code_pct_asst =
        wrapWithRolling ((computeContentWeeklyData records).code_pct_asst.values)) ∧
      ((computeContentMonthlyData records).avg_user_words =
        wrapWithRolling ((computeContentMonthlyData records).avg_user_words.values) ∧
       (computeContentMonthlyData records).avg_asst_words =
        wrapWithRolling ((computeContentMonthlyData records).avg_asst_words.values) ∧
       (computeContentMonthlyData records).response_ratio =
        wrapWithRolling ((computeContentMonthlyData records).response_ratio.values) ∧
       (computeContentMonthlyData records).code_pct_user =
        wrapWithRolling ((computeContentMonthlyData records).code_pct_user.values) ∧
       (computeContentMonthlyData records).code_pct_asst =
        wrapWithRolling ((computeContentMonthlyData records).code_pct_asst.values)) := by
  intro records
  exact ⟨⟨rfl, rfl, rfl⟩, ⟨rfl, rfl, rfl, rfl, rfl, rfl⟩, ⟨rfl, rfl⟩, ⟨rfl, rfl⟩,
    ⟨rfl, rfl, rfl, rfl, rfl⟩, ⟨rfl, rfl, rfl, rfl, rfl⟩⟩

/-! ### C10: activity-by-year rows -/

/-- C10: `compute_activity_by_year` emits year rows exactly for the calendar
years containing at least one active date (a gap year strictly inside the
range gets no row), and in every row, the Overall row included,
`days_active + days_inactive = total_days`. -/
theorem claim_C10 :
    ∀ ts : List ℚ,
      (∀ row ∈ computeActivityByYear ts,
        (row.days_active : ℤ) + row.days_inactive = row.total_days) ∧
      ((computeActivityByYear ts).drop 1).map YearRow.year =
        (activeYearsOf (activeDatesOf (ts.insertionSort (· ≤ ·)))).map toString ∧
      (∀ y : ℤ, y ∈ activeYearsOf (activeDatesOf (ts.insertionSort (· ≤ ·))) ↔
        ∃ t ∈ ts, yearOfDay (tsDate t) = y) := by
  intro ts
  refine ⟨?_, ?_, ?_⟩
  · intro row hrow
    unfold computeActivityByYear at hrow
    cases hs : ts.insertionSort (· ≤ ·) with
    | nil => rw [hs] at hrow; simp [activityByYearSorted] at hrow
    | cons t ts' =>
      rw [hs] at hrow
      simp only [activityByYearSorted, List.mem_cons, List.mem_map] at hrow
      rcases hrow with rfl | ⟨yr, _, rfl⟩
      · simp only [computeOverallStats]
        omega
      · simp only [computeYearStats]
        omega
  · unfold computeActivityByYear
    cases hs : ts.insertionSort (· ≤ ·) with
    | nil => simp [activityByYearSorted, activeDatesOf, activeYearsOf, List.insertionSort]
    | cons t ts' =>
      simp only [activityByYearSorted, List.drop_succ_cons, List.drop_zero, List.map_map]
      exact List.map_congr_left (fun yr _ => rfl)
  · intro y
    have hperm := List.perm_insertionSort (· ≤ ·) ts
    rw [activeYearsOf, (List.perm_insertionSort (· ≤ ·)
      (((activeDatesOf (ts.insertionSort (· ≤ ·))).map yearOfDay).dedup)).mem_iff]
    simp only [List.mem_dedup, List.mem_map, activeDatesOf, hperm.mem_iff]
    constructor
    · rintro ⟨d, ⟨t, ht, rfl⟩, rfl⟩
      exact ⟨t, ht, rfl⟩
    · rintro ⟨t, ht, rfl⟩
      exact ⟨tsDate t, ⟨t, ht, rfl⟩, rfl⟩

theorem claim_C10_witness :
    ((YearRow.mk "Overall" 1 1 0 100 0).days_active : ℤ) +
      (YearRow.mk "Overall" 1 1 0 100 0).days_inactive =
      (YearRow.mk "Overall" 1 1 0 100 0).total_days :=
  (claim_C10 [19723 * 86400 + 36000]).1 _ (by
    norm_num [computeActivityByYear, activityByYearSorted, List.insertionSort,
      List.orderedInsert, computeOverallStats, computeYearStats, activeDatesOf,
      activeYearsOf, tsDate, pyRound1, roundHalfEven])

/-! ### C2: assistant metrics are keyed by the running start date -/

theorem step_start_time (acc : ChatAcc) (m : ExtractedMessage) :
    (processMessageStep acc m).start_time =
      match acceptedUserTime m with
      | none => acc.start_time
      | some t => optMinStep acc.start_time t := by
  by_cases hrole : m.role = "user"
  · cases hct : m.create_time with
    | none => simp [processMessageStep, acceptedUserTime, hrole, hct]
    | some ctv =>
      cases hp : parseTimestamp ctv with
      | none => simp [processMessageStep, acceptedUserTime, hrole, hct, hp]
      | some t =>
        simp only [processMessageStep, acceptedUserTime, hrole, hct, hp, if_true, if_pos,
          Option.some_bind]
        cases hs : acc.start_time with
        | none => simp [updateTimeRange, optMinStep]
        | some s =>
          simp only [updateTimeRange, optMinStep]
          by_cases hlt : t < s
          · rw [if_pos hlt, min_eq_right hlt.le]
          · rw [if_neg hlt, min_eq_left (not_lt.mp hlt)]
  · have h2 : acceptedUserTime m = none := by simp [acceptedUserTime, hrole]
    rw [h2]
    simp only [processMessageStep, if_neg hrole]
    by_cases hasst : m.role = "assistant"
    · rw [if_pos hasst]
      cases hs : acc.start_time <;> simp
    · rw [if_neg hasst]

theorem foldl_start_time : ∀ (msgs : List ExtractedMessage) (acc : ChatAcc),
    (List.foldl processMessageStep acc msgs).start_time =
      (msgs.filterMap acceptedUserTime).foldl optMinStep acc.start_time
  | [], _ => rfl
  | m :: msgs, acc => by
    rw [List.foldl_cons, foldl_start_time msgs (processMessageStep acc m),
      List.filterMap_cons]
    cases h : acceptedUserTime m with
    | none => rw [step_start_time]; simp [h]
    | some t => rw [List.foldl_cons, step_start_time]; simp [h]

theorem dsGet?_accumAsst (d : ℤ) (wc cc : ℕ) (hc : Bool) :
    ∀ (s : DailyStats) (e : ℤ),
      dsGet? (accumulateAsstDailyStats s d wc cc hc) e =
        if e = d then (dsGet? s e).map (fun b => asstBucketAdd b wc cc hc) else dsGet? s e
  | [], e => by by_cases h : e = d <;> simp [accumulateAsstDailyStats, dsGet?, h]
  | (k, b) :: rest, e => by
    by_cases h1 : k = d
    · subst h1
      by_cases h2 : k = e
      · subst h2
        simp [accumulateAsstDailyStats, dsGet?]
      · have h3 : ¬ e = k := fun hh => h2 hh.symm
        simp [accumulateAsstDailyStats, dsGet?, h2, h3]
    · by_cases h2 : k = e
      · have h3 : ¬ e = d := fun hh => h1 (h2.trans hh)
        simp [accumulateAsstDailyStats, dsGet?, h1, h2, h3]
      · have h3 : ¬ e = k := fun hh => h2 hh.symm
        simp [accumulateAsstDailyStats, dsGet?, h1, h2, h3,
          dsGet?_accumAsst d wc cc hc rest e]

theorem dsKeys_accumAsst (d : ℤ) (wc cc : ℕ) (hc : Bool) :
    ∀ s : DailyStats, dsKeys (accumulateAsstDailyStats s d wc cc hc) = dsKeys s
  | [] => rfl
  | (k, b) :: rest => by
    have ih := dsKeys_accumAsst d wc cc hc rest
    by_cases h : k = d
    · simp [accumulateAsstDailyStats, dsKeys, h]
    · simp only [dsKeys] at ih ⊢
      simp only [accumulateAsstDailyStats, if_neg h, List.map_cons]
      rw [ih]

theorem accumAsst_absent (d : ℤ) (wc cc : ℕ) (hc : Bool) :
    ∀ s : DailyStats, dsGet? s d = none → accumulateAsstDailyStats s d wc cc hc = s
  | [], _ => rfl
  | (k, b) :: rest, h => by
    by_cases hk : k = d
    · subst hk
      simp [dsGet?] at h
    · simp only [dsGet?, if_neg hk] at h
      simp [accumulateAsstDailyStats, hk, accumAsst_absent d wc cc hc rest h]

theorem dsGet?_accumUser_isSome (d : ℤ) (wc cc : ℕ) (hc : Bool) :
    ∀ (s : DailyStats) (e : ℤ),
      (dsGet? (accumulateUserDailyStats s d wc cc hc) e).isSome = true ↔
        (e = d ∨ (dsGet? s e).isSome = true)
  | [], e => by
    by_cases h : d = e
    · subst h
      simp [accumulateUserDailyStats, dsGet?]
    · have h2 : ¬ e = d := fun hh => h hh.symm
      simp [accumulateUserDailyStats, dsGet?, h, h2]
  | (k, b) :: rest, e => by
    by_cases h1 : k = d
    · subst h1
      by_cases h2 : k = e
      · subst h2
        simp [accumulateUserDailyStats, dsGet?]
      · have h3 : ¬ e = k := fun hh => h2 hh.symm
        simp [accumulateUserDailyStats, dsGet?, h2, h3]
    · by_cases h2 : k = e
      · subst h2
        simp [accumulateUserDailyStats, dsGet?, h1]
      · have h3 : ¬ e = k := fun hh => h2 hh.symm
        simp [accumulateUserDailyStats, dsGet?, h1, h2, h3,
          dsGet?_accumUser_isSome d wc cc hc rest e]

theorem asst_step_stats (acc : ChatAcc) (m : ExtractedMessage) (h : m.role = "assistant") :
    (acc.start_time = none → (processMessageStep acc m).stats = acc.stats) ∧
    (∀ t, acc.start_time = some t →
      (processMessageStep acc m).stats =
        accumulateAsstDailyStats acc.stats (tsDate t) m.word_count m.char_count m.has_code) := by
  have hne : ¬ m.role = "user" := by rw [h]; decide
  constructor
  · intro hs
    simp [processMessageStep, if_neg hne, if_pos h, hs]
  · intro t hs
    simp [processMessageStep, if_neg hne, if_pos h, hs]

theorem step_preserves_start_key (acc : ChatAcc) (m : ExtractedMessage)
    (hinv : ∀ t, acc.start_time = some t → (dsGet? acc.stats (tsDate t)).isSome = true) :
    ∀ t, (processMessageStep acc m).start_time = some t →
      (dsGet? (processMessageStep acc m).stats (tsDate t)).isSome = true := by
  intro t hst
  by_cases hrole : m.role = "user"
  · cases hct : m.create_time with
    | none =>
      simp only [processMessageStep, hrole, hct, if_true, if_pos] at hst ⊢
      exact hinv t hst
    | some ctv =>
      cases hp : parseTimestamp ctv with
      | none =>
        simp only [processMessageStep, hrole, hct, hp, if_true, if_pos] at hst ⊢
        exact hinv t hst
      | some u =>
        simp only [processMessageStep, hrole, hct, hp, if_true, if_pos] at hst ⊢
        rw [dsGet?_accumUser_isSome]
        cases hs : acc.start_time with
        | none =>
          simp only [updateTimeRange, hs] at hst
          exact Or.inl (by rw [Option.some_inj.mp hst])
        | some s =>
          simp only [updateTimeRange, hs] at hst
          by_cases hlt : u < s
          · rw [if_pos hlt] at hst
            exact Or.inl (by rw [Option.some_inj.mp hst])
          · rw [if_neg hlt] at hst
            exact Or.inr (hinv t (by rw [hs, Option.some_inj.mp hst]))
  · by_cases hasst : m.role = "assistant"
    · have h1 := asst_step_stats acc m hasst
      have hstart : (processMessageStep acc m).start_time = acc.start_time := by
        rw [step_start_time]
        simp [acceptedUserTime, hrole]
      rw [hstart] at hst
      rw [h1.2 t hst, dsGet?_accumAsst, if_pos rfl]
      have hbase := hinv t hst
      cases hg : dsGet? acc.stats (tsDate t) with
      | none => rw [hg] at hbase; simp at hbase
      | some b => simp [hg]
    · simp only [processMessageStep, if_neg hrole, if_neg hasst] at hst ⊢
      exact hinv t hst

theorem foldl_preserves_start_key :
    ∀ (msgs : List ExtractedMessage) (acc : ChatAcc),
      (∀ t, acc.start_time = some t → (dsGet? acc.stats (tsDate t)).isSome = true) →
      ∀ t, (List.foldl processMessageStep acc msgs).start_time = some t →
        (dsGet? (List.foldl processMessageStep acc msgs).stats (tsDate t)).isSome = true
  | [], _, hinv => hinv
  | m :: msgs, acc, hinv => by
    rw [List.foldl_cons]
    exact foldl_preserves_start_key msgs _ (step_preserves_start_key acc m hinv)

/-- C2: during `_process_chat_messages`, the running `chat_start_time` is the
earliest accepted user timestamp seen so far; an assistant message's metrics
are added to the daily bucket keyed by that running start date — dropped
when no user message has been seen yet, never touching any other date — and
`_accumulate_asst_daily_stats` never creates a bucket, so assistant metrics
only ever land on a date whose bucket already exists. -/
theorem claim_C2 :
    (∀ (msgs : List ExtractedMessage) (stats : DailyStats) (tss : List ℚ),
      (List.foldl processMessageStep (initChatAcc stats tss) msgs).start_time =
        earliestUserTime msgs) ∧
    (∀ (acc : ChatAcc) (m : ExtractedMessage), m.role = "assistant" →
      (acc.start_time = none → (processMessageStep acc m).stats = acc.stats) ∧
      (∀ t, acc.start_time = some t →
        (processMessageStep acc m).stats =
          accumulateAsstDailyStats acc.stats (tsDate t) m.word_count m.char_count m.has_code ∧
        ∀ d, d ≠ tsDate t →
          dsGet? (processMessageStep acc m).stats d = dsGet? acc.stats d)) ∧
    (∀ (s : DailyStats) (d : ℤ) (wc cc : ℕ) (hc : Bool),
      dsKeys (accumulateAsstDailyStats s d wc cc hc) = dsKeys s ∧
      (dsGet? s d = none → accumulateAsstDailyStats s d wc cc hc = s)) ∧
    (∀ (msgs : List ExtractedMessage) (stats : DailyStats) (tss : List ℚ) (t : ℚ),
      (List.foldl processMessageStep (initChatAcc stats tss) msgs).start_time = some t →
      (dsGet? (List.foldl processMessageStep (initChatAcc stats tss) msgs).stats
        (tsDate t)).isSome = true) := by
  refine ⟨?_, ?_, ?_, ?_⟩
  · intro msgs stats tss
    rw [foldl_start_time msgs (initChatAcc stats tss)]
    rfl
  · intro acc m h
    have h1 := asst_step_stats acc m h
    refine ⟨h1.1, ?_⟩
    intro t hs
    refine ⟨h1.2 t hs, ?_⟩
    intro d hd
    rw [h1.2 t hs, dsGet?_accumAsst, if_neg hd]
  · intro s d wc cc hc
    exact ⟨dsKeys_accumAsst d wc cc hc s, accumAsst_absent d wc cc hc s⟩
  · intro msgs stats tss t
    exact foldl_preserves_start_key msgs (initChatAcc stats tss) (fun t h => by
      simp [initChatAcc] at h) t

/-- A concrete assistant message. -/
def demoAsstMsg : ExtractedMessage := ⟨"assistant", none, 3, 15, false, []⟩

/-- A concrete mid-conversation state whose running start time is set and
whose date bucket exists. -/
def demoAccWithStart : ChatAcc :=
  ⟨1, some 100, some 100, 2, 0, [], [((0 : ℤ), initDailyBucket)], [100]⟩

theorem claim_C2_witness :
    (processMessageStep (initChatAcc [] []) demoAsstMsg).stats = (initChatAcc [] []).stats ∧
    (processMessageStep demoAccWithStart demoAsstMsg).stats =
      accumulateAsstDailyStats demoAccWithStart.stats (tsDate 100) demoAsstMsg.word_count
        demoAsstMsg.char_count demoAsstMsg.has_code :=
  ⟨(claim_C2.2.1 (initChatAcc [] []) demoAsstMsg rfl).1 rfl,
   ((claim_C2.2.1 demoAccWithStart demoAsstMsg rfl).2 100 rfl).1⟩

/-! ### C1: total_messages vs. timestamp count -/

/-- The sum of `total_messages` over a `daily_stats` dict. -/
def sumTM (s : DailyStats) : ℕ := (s.map (fun p => p.2.total_messages)).sum

theorem sumTM_accumUser (d : ℤ) (wc cc : ℕ) (hc : Bool) :
    ∀ s : DailyStats, sumTM (accumulateUserDailyStats s d wc cc hc) = sumTM s + 1
  | [] => by simp [accumulateUserDailyStats, sumTM, userBucketAdd, initDailyBucket]
  | (k, b) :: rest => by
    by_cases h : k = d
    · simp only [accumulateUserDailyStats, if_pos h, sumTM, List.map_cons, List.sum_cons,
        userBucketAdd]
      omega
    · simp only [accumulateUserDailyStats, if_neg h, sumTM, List.map_cons, List.sum_cons]
      have ih := sumTM_accumUser d wc cc hc rest
      simp only [sumTM] at ih
      omega

theorem sumTM_accumAsst (d : ℤ) (wc cc : ℕ) (hc : Bool) :
    ∀ s : DailyStats, sumTM (accumulateAsstDailyStats s d wc cc hc) = sumTM s
  | [] => rfl
  | (k, b) :: rest => by
    by_cases h : k = d
    · simp [accumulateAsstDailyStats, h, sumTM, asstBucketAdd]
    · simp only [accumulateAsstDailyStats, if_neg h, sumTM, List.map_cons, List.sum_cons]
      have ih := sumTM_accumAsst d wc cc hc rest
      simp only [sumTM] at ih
      omega

theorem sumTM_dsChatAdd (d : ℤ) (n : ℕ) :
    ∀ s : DailyStats, sumTM (dsChatAdd s d n) = sumTM s
  | [] => rfl
  | (k, b) :: rest => by
    by_cases h : k = d
    · simp [dsChatAdd, h, sumTM]
    · simp only [dsChatAdd, if_neg h, sumTM, List.map_cons, List.sum_cons]
      have ih := sumTM_dsChatAdd d n rest
      simp only [sumTM] at ih
      omega

theorem step_tm_accepted (acc : ChatAcc) (m : ExtractedMessage) (t : ℚ)
    (h : acceptedUserTime m = some t) :
    sumTM (processMessageStep acc m).stats = sumTM acc.stats + 1 ∧
    (processMessageStep acc m).timestamps = acc.timestamps ++ [t] := by
  have hrole : m.role = "user" := by
    by_contra hr
    simp [acceptedUserTime, hr] at h
  cases hct : m.create_time with
  | none =>
    rw [acceptedUserTime, if_pos hrole, hct] at h
    exact absurd h (by simp)
  | some ctv =>
    rw [acceptedUserTime, if_pos hrole, hct] at h
    simp only [Option.some_bind] at h
    constructor
    · simp [processMessageStep, hrole, hct, h, sumTM_accumUser]
    · simp [processMessageStep, hrole, hct, h]

theorem step_tm_rejected (acc : ChatAcc) (m : ExtractedMessage)
    (h : acceptedUserTime m = none) :
    sumTM (processMessageStep acc m).stats = sumTM acc.stats ∧
    (processMessageStep acc m).timestamps = acc.timestamps := by
  by_cases hrole : m.role = "user"
  · rw [acceptedUserTime, if_pos hrole] at h
    cases hct : m.create_time with
    | none => constructor <;> simp [processMessageStep, hrole, hct]
    | some ctv =>
      rw [hct] at h
      simp only [Option.some_bind] at h
      constructor <;> simp [processMessageStep, hrole, hct, h]
  · by_cases hasst : m.role = "assistant"
    · cases hs : acc.start_time with
      | none => constructor <;> simp [processMessageStep, hrole, hasst, hs]
      | some st =>
        constructor <;> simp [processMessageStep, hrole, hasst, hs, sumTM_accumAsst]
    · constructor <;> simp [processMessageStep, hrole, hasst]

theorem foldl_tm : ∀ (msgs : List ExtractedMessage) (acc : ChatAcc),
    sumTM (List.foldl processMessageStep acc msgs).stats + acc.timestamps.length =
      sumTM acc.stats + (List.foldl processMessageStep acc msgs).timestamps.length
  | [], _ => rfl
  | m :: msgs, acc => by
    rw [List.foldl_cons]
    have h1 := foldl_tm msgs (processMessageStep acc m)
    cases h : acceptedUserTime m with
    | none =>
      obtain ⟨hs, ht⟩ := step_tm_rejected acc m h
      rw [hs, ht] at h1
      exact h1
    | some t =>
      obtain ⟨hs, ht⟩ := step_tm_accepted acc m t h
      rw [hs, ht] at h1
      simp only [List.length_append, List.length_cons, List.length_nil] at h1 ⊢
      omega

theorem pcm_tm (messages : List ExtractedMessage) (stats : DailyStats) (tss : List ℚ) :
    sumTM (processChatMessages messages stats tss).1 + tss.length =
      sumTM stats + (processChatMessages messages stats tss).2.1.length := by
  have h := foldl_tm messages (initChatAcc stats tss)
  simp only [initChatAcc] at h
  simp only [processChatMessages]
  split
  · simpa using h
  · split
    · simpa [sumTM_dsChatAdd] using h
    · simpa using h

theorem aux_tm : ∀ (convos : List JVal) (sums : List ChatSummary) (stats : DailyStats)
    (tss : List ℚ) (r : List ChatSummary × DailyStats × List ℚ),
    processConversationsAux convos sums stats tss = .ok r →
    sumTM r.2.1 + tss.length = sumTM stats + r.2.2.length
  | [], sums, stats, tss, r, h => by
    simp only [processConversationsAux, Except.ok.injEq] at h
    rw [← h]
  | chat :: rest, sums, stats, tss, r, h => by
    simp only [processConversationsAux] at h
    cases he : extractConversationMessages chat with
    | error e =>
      rw [he] at h
      exact absurd h (by simp)
    | ok messages =>
      rw [he] at h
      simp only at h
      by_cases hemp : messages.isEmpty
      · rw [if_pos hemp] at h
        exact aux_tm rest sums stats tss r h
      · rw [if_neg hemp] at h
        have hp := pcm_tm messages stats tss
        cases hsum : (processChatMessages messages stats tss).2.2 with
        | some s =>
          rw [hsum] at h
          have ih := aux_tm rest (sums ++ [s]) (processChatMessages messages stats tss).1
            (processChatMessages messages stats tss).2.1 r h
          omega
        | none =>
          rw [hsum] at h
          have ih := aux_tm rest sums (processChatMessages messages stats tss).1
            (processChatMessages messages stats tss).2.1 r h
          omega

theorem buildDailyRecords_tm (s : DailyStats) :
    ((buildDailyRecords s).map DailyRecord.total_messages).sum = sumTM s := by
  simp [buildDailyRecords, sumTM, List.map_map, Function.comp_def]

/-- C1: for every input, `process_conversations` returns daily records and a
flat user-timestamp list with `sum(total_messages) = len(all_user_timestamps)`;
per step, a user message accepted with a parseable timestamp appends exactly
one timestamp and adds exactly one to the `total_messages` sum, while every
other message changes neither quantity. -/
theorem claim_C1 :
    (∀ (conversations : List JVal) (sums : List ChatSummary)
        (records : List DailyRecord) (tss : List ℚ),
      processConversations conversations = .ok (sums, records, tss) →
      (records.map DailyRecord.total_messages).sum = tss.length) ∧
    (∀ (acc : ChatAcc) (m : ExtractedMessage) (t : ℚ), acceptedUserTime m = some t →
      sumTM (processMessageStep acc m).stats = sumTM acc.stats + 1 ∧
      (processMessageStep acc m).timestamps = acc.timestamps ++ [t]) ∧
    (∀ (acc : ChatAcc) (m : ExtractedMessage), acceptedUserTime m = none →
      sumTM (processMessageStep acc m).stats = sumTM acc.stats ∧
      (processMessageStep acc m).timestamps = acc.timestamps) := by
  refine ⟨?_, fun acc m t h => step_tm_accepted acc m t h,
    fun acc m h => step_tm_rejected acc m h⟩
  intro conversations sums records tss h
  rw [processConversations] at h
  cases he : processConversationsAux conversations [] [] [] with
  | error e =>
    rw [he] at h
    exact absurd h (by simp [Except.map])
  | ok r =>
    rw [he] at h
    simp only [Except.map, Except.ok.injEq, Prod.mk.injEq] at h
    obtain ⟨h1, h2, h3⟩ := h
    have hnil : sumTM ([] : DailyStats) = 0 := rfl
    have ha := aux_tm conversations [] [] [] r he
    rw [hnil, List.length_nil] at ha
    rw [← h2, ← h3, buildDailyRecords_tm]
    omega

theorem claim_C1_witness :
    (([] : List DailyRecord).map DailyRecord.total_messages).sum = ([] : List ℚ).length :=
  claim_C1.1 [] [] [] [] rfl

/-! ### C9: extraction error behaviour -/

/-- A conversation whose single mapping node carries a non-dict `"message"`
value: `message.get("author")` then raises `AttributeError` in Python. -/
def c9FailingConvo : JVal :=
  .obj [("mapping", .obj [("n", .obj [("message", .str "hello")])])]

/-- C9: the spec says extraction silently excludes any invalid message shape
and never raises, but a node whose `"message"` value is present, non-null and
not a dict makes `_extract_conversation_messages` raise an uncaught
`AttributeError` (aborting the batch); the missing-mapping and non-dict
mapping cases are, by contrast, handled silently as claimed. -/
theorem claim_C9 :
    extractConversationMessages c9FailingConvo = .error "AttributeError" ∧
    extractConversationMessages (.obj []) = .ok [] ∧
    extractConversationMessages (.obj [("mapping", .str "x")]) = .ok [] ∧
    processConversations [c9FailingConvo] = .error "AttributeError" :=
  ⟨rfl, rfl, rfl, rfl⟩

end ChatStats
